import Mathlib

/-
Verification of the editorjs block conversion module (src/editorjs/blocks.py):
a shallow embedding of its data model and conversion operations, together with
theorems about its documented behaviour.

Conventions used throughout:
* Python dict-shaped JSON values are modelled by the inductive type `J`;
  object key order follows the construction order in the source.
* Markdown AST nodes (dicts with optional fields) are modelled by `MDNode`;
  `dict.get(k)` becomes an `Option`-valued field and `dict.get(k, d)` a `getD`.
  A key bound to Python `None` and an absent key are both `none`.
* Python exceptions (ValueError, KeyError, TODO) are modelled by
  `Except String`; error messages follow the source where it states them.
* The mutually recursive conversion functions take a fuel parameter: the
  source can genuinely diverge (for example `default_to_text` on a node whose
  `type` names its own converter and whose children render to the empty
  string), so fuel-indexed recursion is the faithful total model.  Running out
  of fuel yields the error "RecursionError", mirroring Python's recursion
  limit; all theorems hold for every sufficient fuel.
* Python string methods (split, strip, startswith, endswith, join, replace,
  removeprefix) are re-implemented on character lists so that their behaviour
  is fully explicit.
-/

namespace EditorJS

/-- JSON-like values: the shape of editor.js block dictionaries produced by
`to_json` and consumed by `to_markdown`. -/
inductive J where
  | null : J
  | s (v : String) : J
  | n (v : Int) : J
  | b (v : Bool) : J
  | arr (items : List J) : J
  | obj (fields : List (String × J)) : J

/-- Markdown AST node (mdast dict).  The fields are exactly the keys the
source reads: `type`, `value`, `children`, `depth`, `ordered`, `url`, `alt`,
`caption`, and the custom-tag attribute keys `href`, `title`, `image`,
`body`, `file`.  `ordered` is stored with Python truthiness already applied
(absent or falsy value gives `false`). -/
inductive MDNode where
  | mk (type value : Option String) (children : Option (List MDNode))
      (depth : Option Int) (ordered : Bool)
      (url alt caption href title image body file : Option String) : MDNode

def MDNode.type : MDNode → Option String
  | .mk t _ _ _ _ _ _ _ _ _ _ _ _ => t

def MDNode.value : MDNode → Option String
  | .mk _ v _ _ _ _ _ _ _ _ _ _ _ => v

def MDNode.children : MDNode → Option (List MDNode)
  | .mk _ _ c _ _ _ _ _ _ _ _ _ _ => c

def MDNode.depth : MDNode → Option Int
  | .mk _ _ _ d _ _ _ _ _ _ _ _ _ => d

def MDNode.ordered : MDNode → Bool
  | .mk _ _ _ _ o _ _ _ _ _ _ _ _ => o

def MDNode.url : MDNode → Option String
  | .mk _ _ _ _ _ u _ _ _ _ _ _ _ => u

def MDNode.alt : MDNode → Option String
  | .mk _ _ _ _ _ _ a _ _ _ _ _ _ => a

def MDNode.caption : MDNode → Option String
  | .mk _ _ _ _ _ _ _ c _ _ _ _ _ => c

def MDNode.href : MDNode → Option String
  | .mk _ _ _ _ _ _ _ _ h _ _ _ _ => h

def MDNode.title : MDNode → Option String
  | .mk _ _ _ _ _ _ _ _ _ t _ _ _ => t

def MDNode.image : MDNode → Option String
  | .mk _ _ _ _ _ _ _ _ _ _ i _ _ => i

def MDNode.body : MDNode → Option String
  | .mk _ _ _ _ _ _ _ _ _ _ _ b _ => b

def MDNode.file : MDNode → Option String
  | .mk _ _ _ _ _ _ _ _ _ _ _ _ f => f

/-- `node.get("value", "")` -/
def MDNode.valueD (nd : MDNode) : String := nd.value.getD ""

/-- `node.get("children", [])` -/
def MDNode.childrenD (nd : MDNode) : List MDNode := nd.children.getD []

/-- `node.get("type", "")` -/
def MDNode.typeD (nd : MDNode) : String := nd.type.getD ""

/-- Node with every field absent, as a base for concrete test nodes. -/
def emptyNode : MDNode :=
  .mk none none none none false none none none none none none none none

/-- A plain mdast text node carrying a literal value. -/
def textNode (v : String) : MDNode :=
  .mk (some "text") (some v) none none false none none none none none none none none

/-- A raw html mdast node carrying a literal value. -/
def htmlNode (v : String) : MDNode :=
  .mk (some "html") (some v) none none false none none none none none none none none

/-- An mdast image node with a url and alt text. -/
def imageNode (u a : String) : MDNode :=
  .mk (some "image") none none none false (some u) (some a) none none none none none none

/-- A node holding only a list of children, like the dict
`{"children": [...]}` that `ParagraphBlock.to_json` builds for the embedded
custom-tag run. -/
def childrenOnlyNode (cs : List MDNode) : MDNode :=
  .mk none none (some cs) none false none none none none none none none none

/-- A node of the given type holding children. -/
def parentNode (t : String) (cs : List MDNode) : MDNode :=
  .mk (some t) none (some cs) none false none none none none none none none none

/- ### Python string primitives, on character lists -/

/-- Python `str.split(sep)` for a one-character separator, on char lists:
`"".split(s)` is `[""]`, and separators at the ends produce empty fields. -/
def splitChL (c : Char) : List Char → List (List Char)
  | [] => [[]]
  | x :: xs =>
    if x = c then [] :: splitChL c xs
    else
      match splitChL c xs with
      | h :: t => (x :: h) :: t
      | [] => [[x]]

/-- Python `str.split(sep)` for a one-character separator. -/
def pySplit (c : Char) (s : String) : List String :=
  (splitChL c s.data).map fun l => ⟨l⟩

/-- The whitespace characters Python `str.strip()` removes (ASCII range). -/
def pyWS (c : Char) : Bool :=
  c = ' ' || c = '\t' || c = '\n' || c = '\r' || c = '\x0b' || c = '\x0c'

/-- Python `str.strip()` on char lists. -/
def pyStripL (l : List Char) : List Char :=
  ((l.dropWhile pyWS).reverse.dropWhile pyWS).reverse

/-- Python `str.strip()`. -/
def pyStrip (s : String) : String := ⟨pyStripL s.data⟩

/-- Does the first list occur as an initial segment of the second? -/
def startsL : List Char → List Char → Bool
  | [], _ => true
  | _ :: _, [] => false
  | p :: ps, c :: cs => p = c && startsL ps cs

/-- Python `s.startswith(p)`. -/
def sStarts (p s : String) : Bool := startsL p.data s.data

/-- Python `s.endswith(p)`. -/
def sEnds (p s : String) : Bool := startsL p.data.reverse s.data.reverse

/-- Python `sep.join(parts)`. -/
def joinSep (sep : String) : List String → String
  | [] => ""
  | [x] => x
  | x :: xs => x ++ sep ++ joinSep sep xs

/-- Python `"".join(parts)`. -/
def joinAll (parts : List String) : String := joinSep "" parts

/-- Python `s * n` for strings (repetition). -/
def repeatStr (s : String) : Nat → String
  | 0 => ""
  | k + 1 => s ++ repeatStr s k

/-- Python `s.removeprefix(marker)`: drop `marker` when it is an initial
segment of `s`, otherwise return `s` unchanged. -/
def dropLead (marker s : String) : String :=
  if sStarts marker s then ⟨s.data.drop marker.data.length⟩ else s

/-- Python `s.replace(old, new)` for a non-empty `old`: replace every
non-overlapping occurrence, scanning left to right.  (The empty-pattern case
is never exercised by the source, which only replaces "\n".) -/
def replaceL : List Char → List Char → List Char → List Char
  | [], _, l => l
  | _ :: _, _, [] => []
  | o :: os, new, x :: xs =>
    if startsL (o :: os) (x :: xs) then
      new ++ replaceL (o :: os) new ((x :: xs).drop (o :: os).length)
    else
      x :: replaceL (o :: os) new xs
  termination_by _ _ l => l.length
  decreasing_by
    · simp only [List.length_drop, List.length_cons]; omega
    · simp

/-- Python `s.replace(old, new)` (all occurrences); `old` is non-empty at
every use site in the source. -/
def pyReplace (old new s : String) : String := ⟨replaceL old.data new.data s.data⟩

/- ### JSON value helpers -/

/-- Python `data.get(k)` on a block-data dict. -/
def J.get : J → String → Option J
  | .obj fields, k => fields.lookup k
  | _, _ => none

/-- Python truthiness of a JSON value. -/
def jTruthy : J → Bool
  | .null => false
  | .s v => v ≠ ""
  | .n v => v ≠ 0
  | .b v => v
  | .arr items => !items.isEmpty
  | .obj fields => !fields.isEmpty

/-- Python truthiness of `data.get(k, default)` where the default is falsy. -/
def jTruthyD : Option J → Bool
  | none => false
  | some j => jTruthy j

/-- A JSON string for a present value, JSON `null` for an absent one. -/
def jOfOptS : Option String → J
  | some v => .s v
  | none => .null

/- ### The regular expression `<cite>(.+?)</cite>` of `QuoteBlock`

`re.search` finds the leftmost match; `(.+?)` is lazy, matches at least one
character, and `.` does not match a newline.  `re.sub` removes every
non-overlapping match, scanning left to right. -/

/-- After a literal `<cite>`, capture the shortest non-empty run of
non-newline characters that is followed by `</cite>`; return the capture and
the characters after the closing tag. -/
def citeCapture : List Char → Option (List Char × List Char)
  | [] => none
  | c :: rest =>
    if c = '\n' then none
    else if startsL "</cite>".data rest then some ([c], rest.drop 7)
    else
      match citeCapture rest with
      | some (cap, after) => some (c :: cap, after)
      | none => none

/-- The capture group of the leftmost `<cite>(.+?)</cite>` match, if any. -/
def citeFindL : List Char → Option (List Char)
  | [] => none
  | c :: rest =>
    if startsL "<cite>".data (c :: rest) then
      match citeCapture ((c :: rest).drop 6) with
      | some (cap, _) => some cap
      | none => citeFindL rest
    else citeFindL rest

theorem citeCapture_length :
    ∀ (l cap after : List Char), citeCapture l = some (cap, after) →
      after.length < l.length := by
  intro l
  induction l with
  | nil => intro cap after h; simp [citeCapture] at h
  | cons c rest ih =>
    intro cap after h
    simp only [citeCapture] at h
    split at h
    · exact absurd h (by simp)
    · split at h
      · simp only [Option.some.injEq, Prod.mk.injEq] at h
        obtain ⟨h1, h2⟩ := h
        subst h2
        simp only [List.length_drop, List.length_cons]
        omega
      · cases hrec : citeCapture rest with
        | none => rw [hrec] at h; simp at h
        | some pr =>
          obtain ⟨cap', after'⟩ := pr
          rw [hrec] at h
          simp only [Option.some.injEq, Prod.mk.injEq] at h
          obtain ⟨h1, h2⟩ := h
          subst h2
          have := ih cap' after' hrec
          simp only [List.length_cons]
          omega

/-- `re.sub(re_cite, "", text)`: remove every (leftmost, lazy,
non-overlapping) `<cite>(.+?)</cite>` match. -/
def citeSubL : List Char → List Char
  | [] => []
  | c :: rest =>
    if startsL "<cite>".data (c :: rest) then
      match h : citeCapture ((c :: rest).drop 6) with
      | some (_, after) => citeSubL after
      | none => c :: citeSubL rest
    else c :: citeSubL rest
  termination_by l => l.length
  decreasing_by
    · have hlt := citeCapture_length _ _ _ h
      simp only [List.length_drop, List.length_cons] at *
      omega
    · simp
    · simp

/-- Capture group of the first `<cite>(.+?)</cite>` match in a string. -/
def citeFindS (s : String) : Option String := (citeFindL s.data).map fun l => ⟨l⟩

/-- The string with every `<cite>(.+?)</cite>` match removed. -/
def citeSubS (s : String) : String := ⟨citeSubL s.data⟩

/- ### The minimal tag-attribute parser (class `AttributeParser`)

Python's `html.parser.HTMLParser` is fed the tag text; `handle_starttag`
stores `dict(attrs)` (each start tag replaces the previous attribute dict,
attribute names lowercased), and `handle_data` stores the latest text chunk.
End tags are ignored.  Entity references never occur in the source's tag
grammar and are not modelled. -/

/-- `dict(...)` update semantics on an association list of strings: a
repeated key overwrites in place, a new key is appended. -/
def dictInsertS (k v : String) : List (String × String) → List (String × String)
  | [] => [(k, v)]
  | (k', v') :: rest => if k' = k then (k, v) :: rest else (k', v') :: dictInsertS k v rest

/-- `dict(pairs)`. -/
def dictOfS (ps : List (String × String)) : List (String × String) :=
  ps.foldl (fun acc p => dictInsertS p.1 p.2 acc) []

/-- Characters ending an attribute name. -/
def attrNameEnd (c : Char) : Bool := c = '=' || pyWS c || c = '>' || c = '/'

/-- Scan the attribute section of a start tag, returning the attribute pairs
in order and the characters after the closing `>`.  Quoted values use double
or single quotes; unquoted values run to whitespace or `>`; the source's tag
grammar always quotes values (a valueless attribute is modelled as ""). -/
def phAttrs : Nat → List Char → List (String × String) →
    List (String × String) × List Char
  | 0, cs, acc => (acc, cs)
  | f + 1, cs, acc =>
    let cs := cs.dropWhile pyWS
    match cs with
    | [] => (acc, [])
    | '>' :: rest => (acc, rest)
    | '/' :: rest => (acc, (rest.dropWhile (fun c => c ≠ '>')).drop 1)
    | c :: rest =>
      let nm := (c :: rest).takeWhile (fun ch => !attrNameEnd ch)
      let cs1 := (c :: rest).dropWhile (fun ch => !attrNameEnd ch)
      match cs1 with
      | '=' :: '"' :: cs2 =>
        let v := cs2.takeWhile (fun ch => ch ≠ '"')
        phAttrs f ((cs2.dropWhile (fun ch => ch ≠ '"')).drop 1)
          (acc ++ [(⟨nm.map Char.toLower⟩, ⟨v⟩)])
      | '=' :: q :: cs2 =>
        if q = Char.ofNat 39 then
          let v := cs2.takeWhile (fun ch => ch ≠ Char.ofNat 39)
          phAttrs f ((cs2.dropWhile (fun ch => ch ≠ Char.ofNat 39)).drop 1)
            (acc ++ [(⟨nm.map Char.toLower⟩, ⟨v⟩)])
        else
          let v := (q :: cs2).takeWhile (fun ch => !(pyWS ch || ch = '>'))
          phAttrs f ((q :: cs2).dropWhile (fun ch => !(pyWS ch || ch = '>')))
            (acc ++ [(⟨nm.map Char.toLower⟩, ⟨v⟩)])
      | _ =>
        if nm.isEmpty then phAttrs f (cs1.drop 1) acc
        else phAttrs f cs1 (acc ++ [(⟨nm.map Char.toLower⟩, "")])

/-- One pass of the parser over the fed text: `attrs` is the attribute dict
of the last start tag seen, `data` the last text chunk seen. -/
def phGo : Nat → List Char → List (String × String) → Option String →
    List (String × String) × Option String
  | 0, _, attrs, data => (attrs, data)
  | f + 1, [], attrs, data => (attrs, data)
  | f + 1, '<' :: rest, attrs, data =>
    match rest with
    | '/' :: rest2 => phGo f ((rest2.dropWhile (fun c => c ≠ '>')).drop 1) attrs data
    | _ =>
      let rest1 := rest.dropWhile (fun c => !(pyWS c || c = '>' || c = '/'))
      let (pairs, rest2) := phAttrs (f + 1) rest1 []
      phGo f rest2 (dictOfS pairs) data
  | f + 1, cs, attrs, data =>
    let chunk := cs.takeWhile (fun c => c ≠ '<')
    phGo f (cs.dropWhile (fun c => c ≠ '<')) attrs (some ⟨chunk⟩)

/-- `EditorJSCustom.parse_html`: feed the html text to the attribute parser
and return the collected attributes and enclosed text. -/
def parse_html (html : String) : List (String × String) × Option String :=
  phGo (html.data.length + 1) html.data [] none

/- ### The block registry

`BLOCKS: dict[str, EditorJSBlock]` is populated by the `@block(*names)`
decorators at import time, in source order.  The converter classes become the
tags of `BlockTag`; `ChecklistBlock` subclasses `ListBlock`, overriding only
`to_markdown`, so its `to_json`/`to_text` are `ListBlock`'s. -/

inductive BlockTag where
  | heading | paragraph | list | checklist | delimiter | code
  | image | quote | raw | table | linkTool | attaches
deriving DecidableEq

/-- The registry: a Python dict from type name to converter class. -/
abbrev Registry := List (String × BlockTag)

/-- Python dict assignment `BLOCKS[name] = cls`: a repeated key overwrites in
place, a new key is appended. -/
def dictInsert (k : String) (v : BlockTag) : Registry → Registry
  | [] => [(k, v)]
  | (k', v') :: rest => if k' = k then (k, v) :: rest else (k', v') :: dictInsert k v rest

/-- The decorator `@block(*names)`: assigns the class under every name. -/
def block (names : List String) (cls : BlockTag) (m : Registry) : Registry :=
  names.foldl (fun acc nm => dictInsert nm cls acc) m

/-- `BLOCKS.get(name)`. -/
def lookupTag (m : Registry) (nm : String) : Option BlockTag := m.lookup nm

/-- The registry as built by the module's decorators, in source order. -/
def BLOCKS : Registry :=
  block ["attaches"] .attaches
    (block ["linkTool"] .linkTool
      (block ["table"] .table
        (block ["raw"] .raw
          (block ["blockquote", "quote"] .quote
            (block ["image"] .image
              (block ["code"] .code
                (block ["thematicBreak", "delimiter"] .delimiter
                  (block ["checklist"] .checklist
                    (block ["list"] .list
                      (block ["paragraph"] .paragraph
                        (block ["heading", "header"] .heading [])))))))))))

/- ### Simple block builders used by `ParagraphBlock.to_json` -/

def paragraph_block (text : String) : J :=
  .obj [("type", .s "paragraph"), ("data", .obj [("text", .s text)])]

def raw_block (html : String) : J :=
  .obj [("type", .s "raw"), ("data", .obj [("html", .s html)])]

/- ### HeadingBlock -/

/-- `HeadingBlock.to_text`: requires exactly one child; returns its literal
value (`child.get("value", "")`). -/
def HeadingBlock.to_text (node : MDNode) : Except String String :=
  match node.children with
  | some [child] => pure child.valueD
  | _ => throw "Header block must have exactly one child element"

/-- `HeadingBlock.to_json`: requires `depth` in [1,6]. -/
def HeadingBlock.to_json (node : MDNode) : Except String (List J) :=
  match node.depth with
  | some d =>
    if 1 ≤ d ∧ d ≤ 6 then do
      let text ← HeadingBlock.to_text node
      pure [.obj [("data", .obj [("level", .n d), ("text", .s text)]), ("type", .s "header")]]
    else throw "Heading depth must be between 1 and 6."
  | none => throw "Heading depth must be between 1 and 6."

/-- `HeadingBlock.to_markdown`: `'#' * level + ' ' + text + '\n'`, requiring
`level` in [1,6]. -/
def HeadingBlock.to_markdown (data : J) : Except String String := do
  let level ← match data.get "level" with
    | none => pure (1 : Int)
    | some (.n i) => pure i
    | some _ => throw "TypeError"
  let text ← match data.get "text" with
    | none => pure ""
    | some (.s v) => pure v
    | some _ => throw "TypeError"
  if 1 ≤ level ∧ level ≤ 6 then
    pure (repeatStr "#" level.toNat ++ " " ++ text ++ "\n")
  else throw "Header level must be between 1 and 6."

/- ### CodeBlock, DelimiterBlock, ListBlock/TableBlock/RawBlock text -/

def CodeBlock.to_text (node : MDNode) : Except String String := pure node.valueD

def CodeBlock.to_json (node : MDNode) : Except String (List J) :=
  pure [.obj [("data", .obj [("code", .s node.valueD)]), ("type", .s "code")]]

def DelimiterBlock.to_text (_node : MDNode) : Except String String := pure ""

def DelimiterBlock.to_json (_node : MDNode) : Except String (List J) :=
  pure [.obj [("type", .s "delimiter"), ("data", .obj [])]]

def ListBlock.to_text (_node : MDNode) : Except String String := pure ""

def RawBlock.to_json (_node : MDNode) : Except String (List J) := throw "TODO"

def RawBlock.to_text (_node : MDNode) : Except String String := throw "TODO"

def TableBlock.to_text (_node : MDNode) : Except String String := throw "TODO"

/- ### ImageBlock -/

/-- `ImageBlock.to_text`: `node.get("alt") or node.get("caption") or ""`
(Python `or` on strings: first truthy operand, else ""). -/
def ImageBlock.to_textS (node : MDNode) : String :=
  let a := node.alt.getD ""
  if a ≠ "" then a else node.caption.getD ""

def ImageBlock.to_text (node : MDNode) : Except String String :=
  pure (ImageBlock.to_textS node)

/-- `ImageBlock.to_json`: total; `node.get("url")` may be absent, giving a
JSON `null`. -/
def ImageBlock.to_json (node : MDNode) : List J :=
  [.obj [("type", .s "image"),
         ("data", .obj [("caption", .s (ImageBlock.to_textS node)),
                        ("file", .obj [("url", jOfOptS node.url)])])]]

/- ### TableBlock -/

/-- Cell extraction for one line: `row.split("|")[1:-1]`, each cell
stripped.  Note the slice drops the first and last fields unconditionally. -/
def tableCells (row : String) : List String :=
  (((pySplit '|' row).drop 1).dropLast).map pyStrip

/-- The `enumerate` loop of `TableBlock.to_json`: row 0 becomes the header
(and sets `withHeadings`) iff any of its cells is non-empty, row 1 is always
skipped, the remaining rows are appended as body rows. -/
def tableLoop : Nat → List String → Bool → List (List String) →
    Bool × List (List String)
  | _, [], wh, acc => (wh, acc)
  | idx, row :: rest, wh, acc =>
    let tr := tableCells row
    if idx = 0 then
      if tr.any (fun c => c ≠ "") then tableLoop 1 rest true (acc ++ [tr])
      else tableLoop 1 rest wh acc
    else if idx = 1 then tableLoop 2 rest wh acc
    else tableLoop (idx + 1) rest wh (acc ++ [tr])

/-- `TableBlock.to_json`: parse the node's literal value line by line. -/
def TableBlock.to_json (node : MDNode) : Except String (List J) :=
  let parsed := tableLoop 0 (pySplit '\n' (pyStrip node.valueD)) false []
  pure [.obj [("type", .s "table"),
              ("data", .obj [("content", .arr (parsed.2.map fun r => .arr (r.map J.s))),
                             ("withHeadings", .b parsed.1)])]]

/-- One rendered table row: `"| " + " | ".join(tr) + " |\n"`. -/
def tableRowLine (tr : List String) : String :=
  "| " ++ joinSep " | " tr ++ " |\n"

/-- The separator row: `"|" + " - |" * n + "\n"`. -/
def tableSep (n : Nat) : String := "|" ++ repeatStr " - |" n ++ "\n"

/-- The row loop of `TableBlock.to_markdown`: each row rendered, with the
separator inserted after row 0 when `withHeadings` is truthy. -/
def tableRowsOut (wh : Bool) : List (List String) → String
  | [] => ""
  | r0 :: rest =>
    tableRowLine r0 ++ (if wh then tableSep r0.length else "") ++
      joinAll (rest.map tableRowLine)

/-- A table cell must be a string; anything else would make the Python
string joins fail with a type error. -/
def jCell : J → Except String String
  | .s v => pure v
  | _ => throw "TypeError"

/-- A table row must be a list of string cells. -/
def jRow : J → Except String (List String)
  | .arr cells => cells.mapM jCell
  | _ => throw "TypeError"

/-- Extract `data.get("content", [])` as rows of string cells. -/
def jContent (data : J) : Except String (List (List String)) :=
  match data.get "content" with
  | none => pure []
  | some (.arr rows) => rows.mapM jRow
  | some _ => throw "TypeError"

/-- `TableBlock.to_markdown`: renders pipe-delimited rows, synthesizing a
blank header row plus separator when `withHeadings` is falsy and there are
rows. -/
def TableBlock.to_markdown (data : J) : Except String String := do
  let rows ← jContent data
  let wh := jTruthyD (data.get "withHeadings")
  let pre :=
    if !wh && !rows.isEmpty then
      tableRowLine (List.replicate (rows.headD []).length "") ++
        tableSep (rows.headD []).length
    else ""
  pure ("\n" ++ pre ++ tableRowsOut wh rows ++ "\n")

/-- Is the trimmed text pipe-bracketed?  (`ParagraphBlock.to_json` delegates
such children to `TableBlock`.) -/
def tableLike (s : String) : Bool :=
  let ct := pyStrip s
  sStarts "|" ct && sEnds "|" ct

/- ### LinkBlock and AttachmentBlock -/

/-- Modelled after `urllib.parse.urlparse(url).netloc`: the authority
component, present only when introduced by "//" (optionally after a
"scheme:").  The nuance that a scheme must begin with a letter is not
modelled; no source path depends on it. -/
def urlNetloc (url : String) : String :=
  let d := url.data
  let schemeChars := d.takeWhile fun c => c.isAlphanum || c = '+' || c = '-' || c = '.'
  let rest :=
    match d.drop schemeChars.length with
    | ':' :: r => if schemeChars.isEmpty then d else r
    | _ => d
  if startsL "//".data rest then
    ⟨(rest.drop 2).takeWhile fun c => c ≠ '/' && c ≠ '?' && c ≠ '#'⟩
  else ""

/-- `LinkBlock.to_json`: build the linkTool block from the parsed custom-tag
attributes. -/
def LinkBlock.to_json (node : MDNode) : Except String (List J) :=
  pure [.obj [("type", .s "linkTool"),
              ("data", .obj [("link", .s (node.href.getD "")),
                             ("meta", .obj [("title", .s (node.title.getD "")),
                                            ("description", .s (node.body.getD "")),
                                            ("image", .obj [("url", .s (node.image.getD ""))])])])]]

/-- `LinkBlock.to_text`: the rendered link-tool html. -/
def LinkBlock.to_text (node : MDNode) : Except String String :=
  let url := node.href.getD ""
  let image := node.image.getD ""
  let title := node.title.getD ""
  let body := node.body.getD ""
  let domain := urlNetloc url
  pure ("\n        <div class=\"link-tool\">\n            <a class=\"link-tool__content link-tool__content--rendered\" target=\"_blank\"\n               rel=\"nofollow noindex noreferrer\" href=\"" ++
    url ++
    "\">\n                <div class=\"link-tool__image\"\n                     style=\"background-image: url(&quot;" ++
    image ++
    "&quot;);\"></div>\n                <div class=\"link-tool__title\">" ++
    title ++
    "</div>\n                <p class=\"link-tool__description\">" ++
    body ++
    "</p>\n                <span class=\"link-tool__anchor\">" ++
    domain ++
    "</span>\n            </a>\n        </div>\n        ")

/-- `AttachmentBlock.to_json`. -/
def AttachmentBlock.to_json (node : MDNode) : Except String (List J) :=
  pure [.obj [("type", .s "attaches"),
              ("data", .obj [("file", .obj [("url", .s (node.file.getD ""))]),
                             ("title", .s (node.body.getD ""))])]]

/-- The first inline svg of `AttachmentBlock.to_text` (file icon). -/
def attachesSvg1 : String :=
  "<svg xmlns=\"http://www.w3.org/2000/svg\" width=\"24\" height=\"24\" fill=\"none\" viewBox=\"0 0 24 24\"><path stroke=\"currentColor\" stroke-linecap=\"round\" stroke-linejoin=\"round\" stroke-width=\"2\" d=\"M13.3236 8.43554L9.49533 12.1908C9.13119 12.5505 8.93118 13.043 8.9393 13.5598C8.94741 14.0767 9.163 14.5757 9.53862 14.947C9.91424 15.3182 10.4191 15.5314 10.9422 15.5397C11.4653 15.5479 11.9637 15.3504 12.3279 14.9908L16.1562 11.2355C16.8845 10.5161 17.2845 9.53123 17.2682 8.4975C17.252 7.46376 16.8208 6.46583 16.0696 5.72324C15.3184 4.98066 14.3086 4.55425 13.2624 4.53782C12.2162 4.52138 11.2193 4.91627 10.4911 5.63562L6.66277 9.39093C5.57035 10.4699 4.97032 11.9473 4.99467 13.4979C5.01903 15.0485 5.66578 16.5454 6.79264 17.6592C7.9195 18.7731 9.43417 19.4127 11.0034 19.4374C12.5727 19.462 14.068 18.8697 15.1604 17.7907L18.9887 14.0354\"></path></svg>"

/-- The second inline svg of `AttachmentBlock.to_text` (download arrow). -/
def attachesSvg2 : String :=
  "<svg xmlns=\"http://www.w3.org/2000/svg\" width=\"24\" height=\"24\" fill=\"none\" viewBox=\"0 0 24 24\"><path stroke=\"currentColor\" stroke-linecap=\"round\" stroke-width=\"2\" d=\"M7 10L11.8586 14.8586C11.9367 14.9367 12.0633 14.9367 12.1414 14.8586L17 10\"></path></svg>"

/-- `AttachmentBlock.to_text`: the rendered attachment html. -/
def AttachmentBlock.to_text (node : MDNode) : Except String String :=
  pure ("\n        <div class=\"cdx-attaches cdx-attaches--with-file\">\n            <div class=\"cdx-attaches__file-icon\">\n                <div class=\"cdx-attaches__file-icon-background\">\n                    " ++
    attachesSvg1 ++
    "\n                </div>\n            </div>\n            <div class=\"cdx-attaches__file-info\">\n                <div class=\"cdx-attaches__title\" data-placeholder=\"File title\" data-empty=\"false\">\n                " ++
    node.body.getD "" ++
    "\n                </div>\n            </div>\n            <a class=\"cdx-attaches__download-button\" href=\"" ++
    node.file.getD "" ++
    "\" target=\"_blank\" rel=\"nofollow noindex noreferrer\">\n                " ++
    attachesSvg2 ++
    "\n            </a>\n        </div>\n        ")

/- ### Helpers of the recursive converters -/

def fuelErr : String := "RecursionError"

/-- How Python renders `_type` inside the f-string error message. -/
def typeRepr : Option String → String
  | none => "None"
  | some t => t

/-- Membership of `_type` in the `html_wrappers` table. -/
def isWrapperType : Option String → Bool
  | some "text" => true
  | some "html" => true
  | some "emphasis" => true
  | some "strong" => true
  | some "strongEmphasis" => true
  | some "link" => true
  | some "inlineCode" => true
  | _ => false

/-- `html_wrappers.get(_type, "{value}").format(value=..., url=..., ...)`:
the wrapper templates applied directly; a type outside the table falls back
to the bare value.  (`caption` is also passed to `format` in the source but
occurs in no template.) -/
def applyWrapper (ty : Option String) (value url : String) : String :=
  match ty with
  | some "emphasis" => "<i>" ++ value ++ "</i>"
  | some "strong" => "<b>" ++ value ++ "</b>"
  | some "strongEmphasis" => "<b><i>" ++ value ++ "</i></b>"
  | some "link" => "<a href=\"" ++ url ++ "\">" ++ value ++ "</a>"
  | some "inlineCode" => "<code class=\"inline-code\">" ++ value ++ "</code>"
  | _ => value

/-- `is_checklist(value)`: `value.strip().startswith(("[ ]", "[x]"))`. -/
def isChecklistS (v : String) : Bool :=
  sStarts "[ ]" (pyStrip v) || sStarts "[x]" (pyStrip v)

/-- `ListBlock.to_json(grandchild)[0]["data"]["items"]`. -/
def extractItems : List J → Except String (List J)
  | b :: _ =>
    match b.get "data" with
    | some d =>
      match d.get "items" with
      | some (.arr items) => pure items
      | _ => throw "KeyError: items"
    | none => throw "KeyError: data"
  | [] => throw "IndexError"

/-- `"".join(child["value"] for child in children)`: every child must carry a
value (Python raises KeyError otherwise). -/
def getValues : List MDNode → Except String (List String)
  | [] => pure []
  | c :: rest =>
    match c.value with
    | some v => do
      let vs ← getValues rest
      pure (v :: vs)
    | none => throw "KeyError: value"

/-- One checklist item: text drops a leading `"[ ] "` and then a leading
`"[x] "` (two chained `removeprefix` calls); checked tests the unstripped
content. -/
def checklistItemJ (content : String) : J :=
  .obj [("text", .s (dropLead "[x] " (dropLead "[ ] " content))),
        ("checked", .b (sStarts "[x]" content))]

def checklistJ (items : List (String × List J)) : J :=
  .obj [("type", .s "checklist"),
        ("data", .obj [("items", .arr (items.map fun it => checklistItemJ it.1))])]

def listItemJ (it : String × List J) : J :=
  .obj [("content", .s it.1), ("items", .arr it.2)]

def listJ (ordered : Bool) (items : List (String × List J)) : J :=
  .obj [("data", .obj [("items", .arr (items.map listItemJ)),
                       ("style", .s (if ordered then "ordered" else "unordered"))]),
        ("type", .s "list")]

def quoteJ (caption text : String) : J :=
  .obj [("data", .obj [("alignment", .s "left"), ("caption", .s caption),
                       ("text", .s text)]),
        ("type", .s "quote")]

/-- The parsed attribute dict standing in for a node when the dispatched
converter is invoked: `attrs.setdefault("body", body)` keeps an existing
`body` attribute, otherwise stores the enclosed text.  All attribute values
are strings, so the numeric and child fields of a real node are absent (a
converter reading them would fail in Python too, on a type error). -/
def attrsNode (attrs : List (String × String)) (dataTxt : Option String) : MDNode :=
  .mk (attrs.lookup "type") (attrs.lookup "value") none none
    (((attrs.lookup "ordered").getD "") ≠ "")
    (attrs.lookup "url") (attrs.lookup "alt") (attrs.lookup "caption")
    (attrs.lookup "href") (attrs.lookup "title") (attrs.lookup "image")
    (match attrs.lookup "body" with | some b => some b | none => dataTxt)
    (attrs.lookup "file")

/- ### The mutually recursive converters -/

mutual

/-- `process_styled_content(item, strict)`: a type registered in `BLOCKS`
delegates to that converter's `to_text`; otherwise the wrapper table applies
(strict mode rejects unknown types first). -/
def process_styled_content : Nat → MDNode → Bool → Except String String
  | 0, _, _ => throw fuelErr
  | f + 1, item, strict =>
    match item.type with
    | some t =>
      match lookupTag BLOCKS t with
      | some tag => tagToText f tag item
      | none => pscWrapper (f + 1) item strict
    | none => pscWrapper (f + 1) item strict
  termination_by fuel _ _ => (fuel, 2, 0)

/-- The wrapper part of `process_styled_content`: reject unknown types in
strict mode, then render the joined children (recursively, always strict)
when a non-empty child list exists, else the literal value, and apply the
wrapper template. -/
def pscWrapper : Nat → MDNode → Bool → Except String String
  | fuel, item, strict =>
    if strict = true ∧ isWrapperType item.type = false then
      throw ("Unsupported type " ++ typeRepr item.type ++ " in paragraph")
    else do
      let value ← match item.children with
        | some cs => if cs.isEmpty then pure item.valueD else pscList fuel cs
        | none => pure item.valueD
      pure (applyWrapper item.type value (item.url.getD ""))
  termination_by fuel _ _ => (fuel, 1, 0)

/-- `"".join(process_styled_content(child) for child in children)`. -/
def pscList : Nat → List MDNode → Except String String
  | _, [] => pure ""
  | 0, _ :: _ => throw fuelErr
  | f + 1, c :: rest => do
    let v ← process_styled_content f c true
    let vs ← pscList (f + 1) rest
    pure (v ++ vs)
  termination_by fuel items => (fuel, 0, items.length)

/-- `default_to_text(node)`: the joined rendering of the children, or — when
that is empty — the rendering of the node itself. -/
def default_to_text : Nat → MDNode → Except String String
  | 0, _ => throw fuelErr
  | f + 1, node => do
    let joined ← pscList f node.childrenD
    if joined = "" then process_styled_content f node true else pure joined
  termination_by fuel _ => (fuel, 0, 0)

def ParagraphBlock.to_text : Nat → MDNode → Except String String
  | 0, _ => throw fuelErr
  | f + 1, node => default_to_text f node
  termination_by fuel _ => (fuel, 0, 0)

def QuoteBlock.to_text : Nat → MDNode → Except String String
  | 0, _ => throw fuelErr
  | f + 1, node => default_to_text f node
  termination_by fuel _ => (fuel, 0, 0)

/-- Dispatch `BLOCKS[name].to_text(node)` by converter class. -/
def tagToText : Nat → BlockTag → MDNode → Except String String
  | 0, _, _ => throw fuelErr
  | f + 1, tag, node =>
    match tag with
    | .heading => HeadingBlock.to_text node
    | .paragraph => ParagraphBlock.to_text f node
    | .list => ListBlock.to_text node
    | .checklist => ListBlock.to_text node
    | .delimiter => DelimiterBlock.to_text node
    | .code => CodeBlock.to_text node
    | .image => ImageBlock.to_text node
    | .quote => QuoteBlock.to_text f node
    | .raw => RawBlock.to_text node
    | .table => TableBlock.to_text node
    | .linkTool => LinkBlock.to_text node
    | .attaches => AttachmentBlock.to_text node
  termination_by fuel _ _ => (fuel, 0, 0)

/-- `ParagraphBlock.to_json`: the index-based child scan. -/
def ParagraphBlock.to_json : Nat → MDNode → Except String (List J)
  | 0, _ => throw fuelErr
  | f + 1, node => paraScan f node node.childrenD "" false []
  termination_by fuel _ => (fuel, 1, 0)

/-- The child loop of `ParagraphBlock.to_json`: accumulates inline text in
`current`, tracks whether an html-typed child was seen in `anyHtml`, and
appends produced blocks to `res`.  An `<editorjs` html child is decoded as a
custom block (the paired form consumes this child and skips the next two);
an image child flushes the accumulated text (raw block when `anyHtml`, else
paragraph block) and then emits the image block; a child whose rendered,
trimmed text is pipe-bracketed is delegated to the table parser; any other
child's rendering is accumulated.  A final non-empty accumulation is flushed
after the loop. -/
def paraScan : Nat → MDNode → List MDNode → String → Bool → List J →
    Except String (List J)
  | _, _, [], current, anyHtml, res =>
    if current ≠ "" then
      pure (res ++ [if anyHtml then raw_block current else paragraph_block current])
    else pure res
  | 0, _, _ :: _, _, _, _ => throw fuelErr
  | g + 1, node, child :: rest, current, anyHtml0, res =>
    let anyHtml := anyHtml0 || child.type == some "html"
    if child.type = some "html" ∧ sStarts "<editorjs" child.valueD then
      if sEnds "/>" child.valueD then do
        let bs ← EditorJSCustom.to_json g node
        paraScan (g + 1) node rest current anyHtml (res ++ [.arr bs])
      else do
        let bs ← EditorJSCustom.to_json g (childrenOnlyNode (child :: rest.take 1))
        paraScan (g + 1) node (rest.drop 2) current anyHtml (res ++ bs)
    else if child.type = some "image" then
      if current ≠ "" then
        paraScan (g + 1) node rest "" false
          (res ++ [if anyHtml then raw_block current else paragraph_block current] ++
            ImageBlock.to_json child)
      else
        paraScan (g + 1) node rest current anyHtml (res ++ ImageBlock.to_json child)
    else do
      let childText ← ParagraphBlock.to_text g child
      if tableLike childText then do
        let tbl ← TableBlock.to_json child
        paraScan (g + 1) node rest current anyHtml (res ++ tbl)
      else
        paraScan (g + 1) node rest (current ++ childText) anyHtml res
  termination_by fuel _ nodes _ _ _ => (fuel, 0, nodes.length)

/-- `ListBlock.to_json`: scan items, then produce a checklist block when
every paragraph content looked checklist-like and no nested list was seen,
else a list block. -/
def ListBlock.to_json : Nat → MDNode → Except String (List J)
  | 0, _ => throw fuelErr
  | f + 1, node =>
    match node.children with
    | none => throw "KeyError: children"
    | some cs => do
      let scanned ← listScan f cs true []
      if scanned.1 then pure [checklistJ scanned.2]
      else pure [listJ node.ordered scanned.2]
  termination_by fuel _ => (fuel, 1, 0)

/-- The outer loop of `ListBlock.to_json` over the list items. -/
def listScan : Nat → List MDNode → Bool → List (String × List J) →
    Except String (Bool × List (String × List J))
  | _, [], cbc, acc => pure (cbc, acc)
  | 0, _ :: _, _, _ => throw fuelErr
  | g + 1, child :: rest, cbc, acc =>
    match child.children with
    | none => throw "KeyError: children"
    | some gs => do
      let t ← grandScan g gs "" [] cbc
      listScan (g + 1) rest t.2.2 (acc ++ [(t.1, t.2.1)])
  termination_by fuel children _ _ => (fuel, 0, children.length)

/-- The inner loop over one item's children: paragraph children accumulate
content (and update the checklist flag per paragraph), nested lists recurse
and flatten their produced items, any other type raises. -/
def grandScan : Nat → List MDNode → String → List J → Bool →
    Except String (String × List J × Bool)
  | _, [], content, sub, cbc => pure (content, sub, cbc)
  | 0, _ :: _, _, _, _ => throw fuelErr
  | h + 1, g :: rest, content, sub, cbc =>
    if g.typeD = "paragraph" then do
      let sc ← ParagraphBlock.to_text h g
      grandScan (h + 1) rest (content ++ sc) sub (cbc && isChecklistS sc)
    else if g.typeD = "list" then do
      let inner ← ListBlock.to_json h g
      let innerItems ← extractItems inner
      grandScan (h + 1) rest content (sub ++ innerItems) false
    else throw ("Unsupported type " ++ g.typeD ++ " in list")
  termination_by fuel gs _ _ _ => (fuel, 0, gs.length)

/-- `QuoteBlock.to_json`: render, convert newlines to `<br/>`, then extract
and strip the cite tag. -/
def QuoteBlock.to_json : Nat → MDNode → Except String (List J)
  | 0, _ => throw fuelErr
  | f + 1, node => do
    let t0 ← QuoteBlock.to_text f node
    let text := pyReplace "\n" "<br/>\n" t0
    match citeFindS text with
    | some cap => pure [quoteJ cap (citeSubS text)]
    | none => pure [quoteJ "" text]

/-- `EditorJSCustom.to_json`: join the children's literal values, parse the
tag, and dispatch on the `type` attribute through the registry. -/
def EditorJSCustom.to_json : Nat → MDNode → Except String (List J)
  | 0, _ => throw fuelErr
  | f + 1, node => do
    let vals ← getValues node.childrenD
    let parsed := parse_html (joinAll vals)
    let ty := (parsed.1.lookup "type").getD ""
    match lookupTag BLOCKS ty with
    | none => throw ("Unknown custom type " ++ ty)
    | some tag => tagToJson f tag (attrsNode parsed.1 parsed.2)
  termination_by fuel _ => (fuel, 1, 0)

/-- Dispatch `BLOCKS[name].to_json(node)` by converter class. -/
def tagToJson : Nat → BlockTag → MDNode → Except String (List J)
  | 0, _, _ => throw fuelErr
  | f + 1, tag, node =>
    match tag with
    | .heading => HeadingBlock.to_json node
    | .paragraph => ParagraphBlock.to_json f node
    | .list => ListBlock.to_json f node
    | .checklist => ListBlock.to_json f node
    | .delimiter => DelimiterBlock.to_json node
    | .code => CodeBlock.to_json node
    | .image => pure (ImageBlock.to_json node)
    | .quote => QuoteBlock.to_json f node
    | .raw => RawBlock.to_json node
    | .table => TableBlock.to_json node
    | .linkTool => LinkBlock.to_json node
    | .attaches => AttachmentBlock.to_json node
  termination_by fuel _ _ => (fuel, 0, 0)

end

/- ### Specification-side helper definitions used by the theorems -/

/-- Content contribution of one list-item grandchild: a paragraph rendering,
or nothing for a nested list. -/
def geText : String ⊕ List J → String
  | .inl s => s
  | .inr _ => ""

/-- Sub-item contribution of one list-item grandchild. -/
def geItems : String ⊕ List J → List J
  | .inl _ => []
  | .inr l => l

/-- Whether one grandchild keeps the checklist flag alive. -/
def geOK : String ⊕ List J → Bool
  | .inl s => isChecklistS s
  | .inr _ => false

/-- A grandchild together with its recorded outcome: a paragraph rendering
to the given text, or a nested list whose conversion and item extraction
succeed with the given items. -/
def geWF (h : Nat) (e : MDNode × (String ⊕ List J)) : Prop :=
  match e.2 with
  | .inl s => e.1.typeD = "paragraph" ∧ ParagraphBlock.to_text h e.1 = .ok s
  | .inr its => e.1.typeD = "list" ∧
      ∃ inner, ListBlock.to_json h e.1 = .ok inner ∧ extractItems inner = .ok its

/-- A top-level list item together with its grandchildren's outcomes. -/
def itWF (h : Nat) (it : MDNode × List (MDNode × (String ⊕ List J))) : Prop :=
  it.1.children = some (it.2.map Prod.fst) ∧ ∀ e ∈ it.2, geWF h e

/-- The concatenated paragraph content of one item. -/
def itContent (it : MDNode × List (MDNode × (String ⊕ List J))) : String :=
  joinAll (it.2.map fun e => geText e.2)

/-- The flattened sub-items of one item. -/
def itSubs (it : MDNode × List (MDNode × (String ⊕ List J))) : List J :=
  (it.2.map fun e => geItems e.2).flatten

/-- Whether every paragraph content of the item passes the marker test and
the item has no nested list. -/
def itOK (it : MDNode × List (MDNode × (String ⊕ List J))) : Bool :=
  it.2.all fun e => geOK e.2

/-- The table lines joined with a newline between consecutive lines (the
stripped body of a rendered table). -/
def icnl : List (List Char) → List Char
  | [] => []
  | [l] => l
  | l :: rest => l ++ '\n' :: icnl rest

/-- The characters of `" | ".join(cells)`. -/
def jsepD : List (List Char) → List Char
  | [] => []
  | [c] => c
  | c :: cs => c ++ ' ' :: '|' :: ' ' :: jsepD cs

/-- The characters of one rendered table row, without the trailing
newline. -/
def rowCoreD (cells : List (List Char)) : List Char :=
  ('|' :: (' ' :: jsepD cells ++ [' '])) ++ ['|']

/-- The characters of `" - |" * n`. -/
def sepRepD : Nat → List Char
  | 0 => []
  | k + 1 => ' ' :: '-' :: ' ' :: '|' :: sepRepD k

/- ### Basic monad reductions for `Except String` -/

@[simp] theorem ex_pure_eq_ok {α : Type} (a : α) : (pure a : Except String α) = .ok a := rfl

@[simp] theorem ex_bind_ok {α β : Type} (a : α) (f : α → Except String β) :
    (Except.ok a >>= f) = f a := rfl

@[simp] theorem ex_bind_err {α β : Type} (e : String) (f : α → Except String β) :
    ((Except.error e : Except String α) >>= f) = .error e := rfl

@[simp] theorem ex_throw_eq_error {α : Type} (e : String) :
    (throw e : Except String α) = .error e := rfl

/- ### Claim C9: HeadingBlock -/

/-- Claim C9: for a heading node with `depth` d in [1,6] and exactly one
child carrying literal value v, `HeadingBlock.to_json` returns exactly the
single header block with level d and text v; a missing or out-of-range depth
raises, as does a node without exactly one child; and
`HeadingBlock.to_markdown` on the produced data yields d hash marks, a
space, the text and a newline — "## Hello\n" in the depth-2 "Hello"
instance. -/
theorem claim_C9 :
    (∀ (node child : MDNode) (d : Int) (v : String),
        node.depth = some d → 1 ≤ d → d ≤ 6 →
        node.children = some [child] → child.value = some v →
        HeadingBlock.to_json node =
          .ok [.obj [("data", .obj [("level", .n d), ("text", .s v)]), ("type", .s "header")]]) ∧
    (∀ node : MDNode, node.depth = none →
        HeadingBlock.to_json node = .error "Heading depth must be between 1 and 6.") ∧
    (∀ (node : MDNode) (d : Int), node.depth = some d → (d < 1 ∨ 6 < d) →
        HeadingBlock.to_json node = .error "Heading depth must be between 1 and 6.") ∧
    (∀ (node : MDNode) (d : Int), node.depth = some d → 1 ≤ d → d ≤ 6 →
        (∀ c : MDNode, node.children ≠ some [c]) →
        HeadingBlock.to_json node = .error "Header block must have exactly one child element") ∧
    (∀ (d : Int) (v : String), 1 ≤ d → d ≤ 6 →
        HeadingBlock.to_markdown (.obj [("level", .n d), ("text", .s v)]) =
          .ok (repeatStr "#" d.toNat ++ " " ++ v ++ "\n")) ∧
    HeadingBlock.to_markdown (.obj [("level", .n 2), ("text", .s "Hello")]) = .ok "## Hello\n" := by
  refine ⟨?_, ?_, ?_, ?_, ?_, ?_⟩
  · intro node child d v hdep h1 h2 hch hv
    simp [HeadingBlock.to_json, HeadingBlock.to_text, hdep, hch, h1, h2,
      MDNode.valueD, hv]
  · intro node hdep
    simp [HeadingBlock.to_json, hdep]
  · intro node d hdep hout
    rw [HeadingBlock.to_json, hdep]
    simp only
    rw [if_neg (by omega)]
    rfl
  · intro node d hdep h1 h2 hch
    rw [HeadingBlock.to_json, hdep]
    simp only
    rw [if_pos ⟨h1, h2⟩]
    rw [HeadingBlock.to_text]
    rcases hc : node.children with _ | cs
    · simp
    · rcases cs with _ | ⟨c1, cs⟩
      · simp
      · rcases cs with _ | ⟨c2, cs⟩
        · exact absurd hc (hch c1)
        · simp
  · intro d v h1 h2
    simp [HeadingBlock.to_markdown, J.get, List.lookup, h1, h2]
  · rfl

/-- Witness for C9 at the concrete input of the spec's first scenario. -/
theorem claim_C9_witness :
    HeadingBlock.to_json
        (.mk (some "heading") none (some [textNode "Hello"]) (some 2) false
          none none none none none none none none) =
      .ok [.obj [("data", .obj [("level", .n 2), ("text", .s "Hello")]), ("type", .s "header")]] :=
  claim_C9.1 _ (textNode "Hello") 2 "Hello" rfl (by decide) (by decide) rfl rfl

/- ### Claim C10: the empty list node -/

/-- Claim C10: a list node whose children sequence is empty yields a single
checklist block with an empty items list (the checklist inference holds
vacuously), never a list block. -/
theorem claim_C10 (f : Nat) (node : MDNode) (hch : node.children = some []) :
    ListBlock.to_json (f + 1) node = .ok [checklistJ []] := by
  simp [ListBlock.to_json, listScan, hch]

/-- Witness for C10 at a concrete empty list node. -/
theorem claim_C10_witness :
    ListBlock.to_json 1 (parentNode "list" []) = .ok [checklistJ []] :=
  claim_C10 0 (parentNode "list" []) rfl

/- ### Claim C8: the inline serializer on unregistered and registered types -/

theorem applyWrapper_default (ty : Option String) (v u : String)
    (h : isWrapperType ty = false) : applyWrapper ty v u = v := by
  unfold applyWrapper
  split <;> first
    | rfl
    | (exfalso; simp_all [isWrapperType])

/-- Counterexample to claim C8: in non-strict mode an unregistered,
non-wrapper inline node that carries children does NOT return its own value
passed through — the node of type "marquee" with value "v" and a single text
child carrying "w" renders to "w", the joined rendering of its children; the
node's own value "v" is ignored. -/
theorem claim_C8_counterexample :
    process_styled_content 2
        (.mk (some "marquee") (some "v") (some [textNode "w"]) none false
          none none none none none none none none) false = .ok "w" ∧
    (Except.ok "w" : Except String String) ≠ .ok "v" := by
  constructor
  · simp [process_styled_content, pscWrapper, pscList, textNode,
      MDNode.type, MDNode.value, MDNode.valueD, MDNode.children, MDNode.url,
      lookupTag, BLOCKS, block, dictInsert, applyWrapper, isWrapperType, List.lookup]
  · simp

/-- Claim C8 (amended): an inline node whose type is neither a wrapper type
nor a registered block type raises the unsupported-inline-type error in
strict mode; in non-strict mode no wrapper is applied and the result is the
node's literal value when the node has no children (or an empty child list),
but the joined strict rendering of the children — the node's own value being
ignored — when a non-empty child list exists; a node whose type is
registered delegates to that converter's `to_text`. -/
theorem claim_C8_thm :
    (∀ (f : Nat) (item : MDNode),
        (∀ t, item.type = some t → lookupTag BLOCKS t = none) →
        isWrapperType item.type = false →
        process_styled_content (f + 1) item true =
          .error ("Unsupported type " ++ typeRepr item.type ++ " in paragraph")) ∧
    (∀ (f : Nat) (item : MDNode),
        (∀ t, item.type = some t → lookupTag BLOCKS t = none) →
        isWrapperType item.type = false →
        process_styled_content (f + 1) item false =
          (match item.children with
           | some (c :: rest) => pscList (f + 1) (c :: rest)
           | _ => .ok item.valueD)) ∧
    (∀ (f : Nat) (item : MDNode) (strict : Bool) (t : String) (tag : BlockTag),
        item.type = some t → lookupTag BLOCKS t = some tag →
        process_styled_content (f + 1) item strict = tagToText f tag item) := by
  refine ⟨?_, ?_, ?_⟩
  · intro f item hreg hwrap
    have hw : pscWrapper (f + 1) item true =
        .error ("Unsupported type " ++ typeRepr item.type ++ " in paragraph") := by
      rw [pscWrapper, if_pos ⟨rfl, hwrap⟩]
      rfl
    rw [process_styled_content]
    rcases ht : item.type with _ | t
    · simpa [ht] using hw
    · simpa [ht, hreg t ht] using hw
  · intro f item hreg hwrap
    have hw : pscWrapper (f + 1) item false =
        (match item.children with
         | some (c :: rest) => pscList (f + 1) (c :: rest)
         | _ => .ok item.valueD) := by
      rw [pscWrapper, if_neg (by simp)]
      rcases hch : item.children with _ | ⟨_ | ⟨c, rest⟩⟩
      · simp [hch, applyWrapper_default _ _ _ hwrap]
      · simp [hch, applyWrapper_default _ _ _ hwrap]
      · rcases hpl : pscList (f + 1) (c :: rest) with e | v
        · simp [hch, hpl]
        · simp [hch, hpl, applyWrapper_default _ _ _ hwrap]
    rw [process_styled_content]
    rcases ht : item.type with _ | t
    · simpa [ht] using hw
    · simpa [ht, hreg t ht] using hw
  · intro f item strict t tag ht hlk
    rw [process_styled_content]
    simp [ht, hlk]

/-- Witness for C8 at concrete inputs: a childless node of unknown type
"marquee" errors in strict mode and passes its value "v" through in
non-strict mode; the same node carrying a text child "w" renders to "w" in
non-strict mode (its own value ignored); and a node of the registered type
"code" renders through the code converter. -/
theorem claim_C8_witness :
    process_styled_content 1
        (.mk (some "marquee") (some "v") none none false none none none none none none none none) true =
      .error "Unsupported type marquee in paragraph" ∧
    process_styled_content 1
        (.mk (some "marquee") (some "v") none none false none none none none none none none none) false =
      .ok "v" ∧
    process_styled_content 2
        (.mk (some "marquee") (some "v") (some [textNode "u"]) none false
          none none none none none none none none) false = .ok "u" ∧
    process_styled_content 1
        (.mk (some "code") (some "print(1)") none none false none none none none none none none none) true =
      tagToText 0 .code
        (.mk (some "code") (some "print(1)") none none false none none none none none none none none) := by
  refine ⟨?_, ?_, ?_, ?_⟩
  · exact claim_C8_thm.1 0 _ (by intro t ht; cases ht; decide) (by decide)
  · exact claim_C8_thm.2.1 0 _ (by intro t ht; cases ht; decide) (by decide)
  · exact (claim_C8_thm.2.1 1 _ (by intro t ht; cases ht; decide) (by decide)).trans
      (by simp [pscList, process_styled_content, pscWrapper, textNode,
        MDNode.type, MDNode.value, MDNode.valueD, MDNode.children, MDNode.url,
        lookupTag, BLOCKS, block, dictInsert, applyWrapper, isWrapperType, List.lookup])
  · exact claim_C8_thm.2.2 0 _ true "code" .code rfl (by decide)

/- ### Claim C5: TableBlock.to_json parsing -/

theorem tableLoop_ge2 (rest : List String) : ∀ (idx : Nat) (wh : Bool) (acc : List (List String)),
    idx ≠ 0 → idx ≠ 1 →
    tableLoop idx rest wh acc = (wh, acc ++ rest.map tableCells) := by
  induction rest with
  | nil => intro idx wh acc h0 h1; simp [tableLoop]
  | cons row rest ih =>
    intro idx wh acc h0 h1
    rw [tableLoop, if_neg h0, if_neg h1]
    rw [ih (idx + 1) wh (acc ++ [tableCells row]) (by omega) (by omega)]
    simp

/-- Claim C5: `TableBlock.to_json` splits the literal value into lines (after
stripping); each line's cells are the stripped fields of the pipe-split with
the outer fields dropped; line 0 becomes the header (setting withHeadings)
iff one of its cells is non-empty and is discarded otherwise; line 1 is
always skipped; every further line is a body row.  In particular the input
lines "|A|B|", "|-|-|", "|1|2|" produce a table with headings ["A","B"] and
body [["1","2"]]. -/
theorem claim_C5 :
    (∀ (node : MDNode) (v l0 : String) (rest : List String),
        node.value = some v →
        pySplit '\n' (pyStrip v) = l0 :: rest →
        TableBlock.to_json node =
          .ok [.obj [("type", .s "table"),
                     ("data", .obj [("content", .arr
                          ((((if (tableCells l0).any (fun c => c ≠ "") then [tableCells l0] else []) ++
                             (rest.drop 1).map tableCells)).map fun r => .arr (r.map J.s))),
                        ("withHeadings", .b ((tableCells l0).any (fun c => c ≠ "")))])]]) ∧
    TableBlock.to_json
        (.mk none (some "|A|B|\n|-|-|\n|1|2|") none none false none none none none none none none none) =
      .ok [.obj [("type", .s "table"),
                 ("data", .obj [("content", .arr [.arr [.s "A", .s "B"], .arr [.s "1", .s "2"]]),
                                ("withHeadings", .b true)])]] := by
  constructor
  · intro node v l0 rest hv hsplit
    have hvd : node.valueD = v := by simp [MDNode.valueD, hv]
    rcases rest with _ | ⟨r1, rest2⟩ <;>
      rcases hA : (tableCells l0).any (fun c => c ≠ "") with _ | _ <;>
      · rw [TableBlock.to_json, hvd, hsplit]
        simp only [tableLoop]
        rw [hA]
        simp [tableLoop, tableLoop_ge2]
  · rfl

/- ### Claim C4: the table round-trip -/

theorem joinAll_cons (x : String) (l : List String) :
    joinAll (x :: l) = x ++ joinAll l := by
  cases l with
  | nil => simp [joinAll, joinSep]
  | cons y ys => simp [joinAll, joinSep]

theorem splitChL_ne_nil (c : Char) (l : List Char) : splitChL c l ≠ [] := by
  induction l with
  | nil => simp [splitChL]
  | cons x xs ih =>
    rw [splitChL]
    split
    · simp
    · rcases h : splitChL c xs with _ | ⟨hd, tl⟩
      · exact absurd h ih
      · simp

theorem splitChL_of_not_mem (c : Char) (l : List Char) (h : c ∉ l) : splitChL c l = [l] := by
  induction l with
  | nil => rfl
  | cons x xs ih =>
    have hx : x ≠ c := fun he => h (by simp [he])
    have hxs : c ∉ xs := fun hm => h (by simp [hm])
    rw [splitChL, if_neg (fun he => hx he), ih hxs]

theorem splitChL_append (c : Char) (a b : List Char) (h : c ∉ a) :
    splitChL c (a ++ c :: b) = a :: splitChL c b := by
  induction a with
  | nil => simp [splitChL]
  | cons x xs ih =>
    have hx : x ≠ c := fun he => h (by simp [he])
    have hxs : c ∉ xs := fun hm => h (by simp [hm])
    rw [List.cons_append, splitChL, if_neg (fun he => hx he), ih hxs]

theorem dropWhile_append_all (p : Char → Bool) (l b : List Char)
    (h : ∀ a ∈ l, p a = true) : List.dropWhile p (l ++ b) = List.dropWhile p b := by
  induction l with
  | nil => rfl
  | cons x xs ih =>
    rw [List.cons_append, List.dropWhile_cons, if_pos (h x (by simp))]
    exact ih (fun a ha => h a (by simp [ha]))

theorem dropWhile_append_left (p : Char → Bool) (l b : List Char)
    (h : List.dropWhile p l ≠ []) :
    List.dropWhile p (l ++ b) = List.dropWhile p l ++ b := by
  induction l with
  | nil => simp at h
  | cons x xs ih =>
    rw [List.cons_append, List.dropWhile_cons, List.dropWhile_cons]
    rw [List.dropWhile_cons] at h
    by_cases hp : p x = true
    · rw [if_pos hp, if_pos hp]
      rw [if_pos hp] at h
      exact ih h
    · rw [if_neg hp, if_neg hp]
      simp

theorem pyStripL_cons_ws (x : Char) (l : List Char) (hx : pyWS x = true) :
    pyStripL (x :: l) = pyStripL l := by
  rw [pyStripL, pyStripL, List.dropWhile_cons, if_pos hx]

theorem pyStripL_append_ws (x : Char) (l : List Char) (hx : pyWS x = true) :
    pyStripL (l ++ [x]) = pyStripL l := by
  rcases h : List.dropWhile pyWS l with _ | ⟨y, ys⟩
  · have hall : ∀ a ∈ l, pyWS a = true := List.dropWhile_eq_nil_iff.mp h
    rw [pyStripL, dropWhile_append_all pyWS l [x] hall]
    rw [pyStripL, h]
    simp [List.dropWhile_cons, hx]
  · rw [pyStripL, dropWhile_append_left pyWS l [x] (by rw [h]; simp), h]
    rw [pyStripL, h]
    simp only [List.reverse_append, List.reverse_cons, List.reverse_nil, List.nil_append,
      List.singleton_append, List.dropWhile_cons, if_pos hx]

theorem pyStripL_of_ends (x y : Char) (mid : List Char) (hx : pyWS x = false) (hy : pyWS y = false) :
    pyStripL ((x :: mid) ++ [y]) = (x :: mid) ++ [y] := by
  rw [List.cons_append, pyStripL]
  rw [List.dropWhile_cons, if_neg (by simp [hx])]
  rw [show (x :: (mid ++ [y])).reverse = y :: (x :: mid).reverse from by simp]
  rw [List.dropWhile_cons, if_neg (by simp [hy])]
  simp

theorem flatten_nl_eq_icnl (lines : List (List Char)) (h : lines ≠ []) :
    (lines.map (· ++ ['\n'])).flatten = icnl lines ++ ['\n'] := by
  induction lines with
  | nil => cases h rfl
  | cons l rest ih =>
    cases rest with
    | nil => simp [icnl]
    | cons l2 rest2 =>
      rw [List.map_cons, List.flatten_cons, ih (by simp)]
      rw [show icnl (l :: l2 :: rest2) = l ++ '\n' :: icnl (l2 :: rest2) from rfl]
      simp

theorem icnl_shape (lines : List (List Char)) (h : lines ≠ [])
    (hall : ∀ l ∈ lines, ∃ mid, l = ('|' :: mid) ++ ['|']) :
    ∃ MID, icnl lines = ('|' :: MID) ++ ['|'] := by
  induction lines with
  | nil => cases h rfl
  | cons l rest ih =>
    cases rest with
    | nil =>
      obtain ⟨mid, hm⟩ := hall l (by simp)
      exact ⟨mid, by simp [icnl, hm]⟩
    | cons l2 rest2 =>
      obtain ⟨mid, hm⟩ := hall l (by simp)
      obtain ⟨MID2, hM⟩ := ih (by simp) (fun x hx => hall x (by simp [hx]))
      refine ⟨mid ++ ['|', '\n', '|'] ++ MID2, ?_⟩
      rw [show icnl (l :: l2 :: rest2) = l ++ '\n' :: icnl (l2 :: rest2) from rfl, hm, hM]
      simp

theorem icnl_split (lines : List (List Char)) (h : lines ≠ [])
    (hnl : ∀ l ∈ lines, '\n' ∉ l) :
    splitChL '\n' (icnl lines) = lines := by
  induction lines with
  | nil => cases h rfl
  | cons l rest ih =>
    cases rest with
    | nil => exact splitChL_of_not_mem '\n' l (hnl l (by simp))
    | cons l2 rest2 =>
      rw [show icnl (l :: l2 :: rest2) = l ++ '\n' :: icnl (l2 :: rest2) from rfl]
      rw [splitChL_append '\n' _ _ (hnl l (by simp))]
      rw [ih (by simp) (fun x hx => hnl x (by simp [hx]))]

theorem strip_split_lines (lines : List (List Char)) (h : lines ≠ [])
    (hshape : ∀ l ∈ lines, ∃ mid, l = ('|' :: mid) ++ ['|'])
    (hnl : ∀ l ∈ lines, '\n' ∉ l) :
    pySplit '\n' (pyStrip ⟨('\n' :: (lines.map (· ++ ['\n'])).flatten) ++ ['\n']⟩) =
      lines.map (fun l => (⟨l⟩ : String)) := by
  rw [pyStrip]
  rw [show (String.mk (('\n' :: (lines.map (· ++ ['\n'])).flatten) ++ ['\n'])).data
      = ('\n' :: (lines.map (· ++ ['\n'])).flatten) ++ ['\n'] from rfl]
  rw [flatten_nl_eq_icnl lines h]
  rw [List.cons_append]
  rw [pyStripL_cons_ws '\n' _ (by decide)]
  rw [pyStripL_append_ws '\n' _ (by decide)]
  rw [pyStripL_append_ws '\n' _ (by decide)]
  obtain ⟨MID, hM⟩ := icnl_shape lines h hshape
  rw [hM, pyStripL_of_ends '|' '|' MID (by decide) (by decide), ← hM]
  rw [pySplit]
  rw [show (String.mk (icnl lines)).data = icnl lines from rfl]
  rw [icnl_split lines h hnl]

theorem mk_data (s : String) : (⟨s.data⟩ : String) = s := by cases s; rfl

theorem strExt {s t : String} (h : s.data = t.data) : s = t := by
  cases s; cases t; exact congrArg String.mk h

theorem joinSep_data (tr : List String) :
    (joinSep " | " tr).data = jsepD (tr.map String.data) := by
  induction tr with
  | nil => rfl
  | cons x xs ih =>
    cases xs with
    | nil => rfl
    | cons y ys =>
      rw [show joinSep " | " (x :: y :: ys) = x ++ " | " ++ joinSep " | " (y :: ys) from rfl]
      rw [String.data_append, String.data_append, ih]
      simp only [List.map_cons]
      rw [show jsepD (x.data :: y.data :: List.map String.data ys)
          = x.data ++ ' ' :: '|' :: ' ' :: jsepD (y.data :: List.map String.data ys) from rfl]
      simp

theorem rowline_data (tr : List String) :
    (tableRowLine tr).data = rowCoreD (tr.map String.data) ++ ['\n'] := by
  rw [tableRowLine, rowCoreD]
  rw [String.data_append, String.data_append, joinSep_data]
  rw [show ("| " : String).data = ['|', ' '] from rfl,
      show (" |\n" : String).data = [' ', '|', '\n'] from rfl]
  simp

theorem splitChL_mid (cells : List (List Char)) (h : cells ≠ [])
    (hp : ∀ c ∈ cells, '|' ∉ c) :
    splitChL '|' ((' ' :: jsepD cells ++ [' ']) ++ ['|'])
      = (cells.map fun c => ' ' :: c ++ [' ']) ++ [[]] := by
  induction cells with
  | nil => cases h rfl
  | cons c cs ih =>
    cases cs with
    | nil =>
      have hpc : '|' ∉ (' ' :: c ++ [' ']) := by
        have := hp c (by simp)
        simp [this]
      rw [show jsepD [c] = c from rfl]
      rw [show (' ' :: c ++ [' ']) ++ ['|'] = (' ' :: c ++ [' ']) ++ '|' :: [] from rfl]
      rw [splitChL_append '|' _ _ hpc]
      rfl
    | cons c2 cs2 =>
      have hpc : '|' ∉ (' ' :: c ++ [' ']) := by
        have := hp c (by simp)
        simp [this]
      rw [show jsepD (c :: c2 :: cs2) = c ++ ' ' :: '|' :: ' ' :: jsepD (c2 :: cs2) from rfl]
      rw [show (' ' :: (c ++ ' ' :: '|' :: ' ' :: jsepD (c2 :: cs2)) ++ [' ']) ++ ['|']
          = (' ' :: c ++ [' ']) ++ '|' :: ((' ' :: jsepD (c2 :: cs2) ++ [' ']) ++ ['|']) from by simp]
      rw [splitChL_append '|' _ _ hpc]
      rw [ih (by simp) (fun x hx => hp x (by simp [hx]))]
      simp

theorem pyStrip_pad (t : String) (ht : pyStrip t = t) :
    pyStrip ⟨' ' :: t.data ++ [' ']⟩ = t := by
  rw [pyStrip]
  rw [show (String.mk (' ' :: t.data ++ [' '])).data = (' ' :: t.data) ++ [' '] from rfl]
  rw [pyStripL_append_ws ' ' _ (by decide)]
  rw [pyStripL_cons_ws ' ' _ (by decide)]
  have h2 := congrArg String.data ht
  rw [pyStrip] at h2
  rw [show (String.mk (pyStripL t.data)).data = pyStripL t.data from rfl] at h2
  rw [h2, mk_data]

theorem map_strip_chain (tr : List String) (hok : ∀ c ∈ tr, pyStrip c = c) :
    List.map pyStrip (List.map (fun l => (⟨l⟩ : String))
      (List.map (fun c => ' ' :: c ++ [' ']) (List.map String.data tr))) = tr := by
  induction tr with
  | nil => rfl
  | cons t ts ih =>
    simp only [List.map_cons]
    rw [ih (fun c hc => hok c (by simp [hc]))]
    rw [pyStrip_pad t (hok t (by simp))]

theorem tableCells_rowCoreD (tr : List String) (h : tr ≠ [])
    (hok : ∀ c ∈ tr, '|' ∉ c.data ∧ pyStrip c = c) :
    tableCells ⟨rowCoreD (tr.map String.data)⟩ = tr := by
  rw [tableCells, pySplit]
  rw [show (String.mk (rowCoreD (tr.map String.data))).data
      = rowCoreD (tr.map String.data) from rfl]
  rw [rowCoreD, List.cons_append]
  rw [show splitChL '|' ('|' :: ((' ' :: jsepD (tr.map String.data) ++ [' ']) ++ ['|']))
      = [] :: splitChL '|' ((' ' :: jsepD (tr.map String.data) ++ [' ']) ++ ['|']) from by
    rw [splitChL]; simp]
  rw [splitChL_mid (tr.map String.data) (by simpa using h)
    (by intro x hx
        simp only [List.mem_map] at hx
        obtain ⟨t, ht, rfl⟩ := hx
        exact (hok t ht).1)]
  rw [List.map_cons, List.drop_one, List.tail_cons]
  rw [List.map_append]
  rw [show ([([] : List Char)].map fun l => (⟨l⟩ : String)) = [""] from rfl]
  rw [List.dropLast_concat]
  exact map_strip_chain tr (fun c hc => (hok c hc).2)

theorem repeatStr_sep_data (n : Nat) : (repeatStr " - |" n).data = sepRepD n := by
  induction n with
  | zero => rfl
  | succ k ih =>
    rw [repeatStr, String.data_append, ih]
    rfl

theorem sep_data (n : Nat) : (tableSep n).data = ('|' :: sepRepD n) ++ ['\n'] := by
  rw [tableSep, String.data_append, String.data_append, repeatStr_sep_data]
  rfl

theorem sepCore_shape (n : Nat) (h : n ≠ 0) :
    ∃ mid, '|' :: sepRepD n = ('|' :: mid) ++ ['|'] := by
  induction n with
  | zero => cases h rfl
  | succ k ih =>
    cases k with
    | zero => exact ⟨[' ', '-', ' '], rfl⟩
    | succ m =>
      obtain ⟨mid, hm⟩ := ih (by omega)
      have hm2 : sepRepD (m + 1) = mid ++ ['|'] := by
        have h2 := hm
        rw [List.cons_append] at h2
        injection h2
      refine ⟨[' ', '-', ' ', '|'] ++ mid, ?_⟩
      rw [sepRepD, hm2]
      simp

theorem sepRepD_no_nl (n : Nat) : '\n' ∉ '|' :: sepRepD n := by
  induction n with
  | zero => simp [sepRepD]
  | succ k ih =>
    rw [sepRepD]
    intro hmem
    simp only [List.mem_cons] at hmem ih
    rcases hmem with h | h | h | h | h | h <;> first
      | exact absurd h (by decide)
      | exact ih (by simp [h])

theorem jsepD_no_nl (cells : List (List Char)) (h : ∀ c ∈ cells, '\n' ∉ c) :
    '\n' ∉ jsepD cells := by
  induction cells with
  | nil => simp [jsepD]
  | cons c cs ih =>
    cases cs with
    | nil => exact h c (by simp)
    | cons c2 cs2 =>
      rw [show jsepD (c :: c2 :: cs2) = c ++ ' ' :: '|' :: ' ' :: jsepD (c2 :: cs2) from rfl]
      intro hmem
      rw [List.mem_append] at hmem
      rcases hmem with hmem | hmem
      · exact h c (by simp) hmem
      · simp only [List.mem_cons] at hmem
        rcases hmem with hh | hh | hh | hh <;> first
          | exact absurd hh (by decide)
          | exact ih (fun x hx => h x (by simp [hx])) hh

theorem rowCoreD_no_nl (cells : List (List Char)) (h : ∀ c ∈ cells, '\n' ∉ c) :
    '\n' ∉ rowCoreD cells := by
  rw [rowCoreD]
  intro hmem
  simp only [List.mem_append, List.mem_cons] at hmem
  rcases hmem with (hh | hh | hh) | hh <;> first
    | exact absurd hh (by decide)
    | exact jsepD_no_nl cells h (by simpa using hh)

theorem rowCoreD_shape (cells : List (List Char)) :
    ∃ mid, rowCoreD cells = ('|' :: mid) ++ ['|'] :=
  ⟨' ' :: jsepD cells ++ [' '], rfl⟩

theorem nl_data : ("\n" : String).data = ['\n'] := rfl

theorem jRow_eval (r : List String) : jRow (.arr (r.map J.s)) = .ok r := by
  rw [jRow]
  induction r with
  | nil => rfl
  | cons c cs ih =>
    rw [List.map_cons, List.mapM_cons]
    rw [show jCell (J.s c) = pure c from rfl]
    simp only [ex_pure_eq_ok, ex_bind_ok]
    rw [ih]
    rfl

theorem mapM_jRow (rows : List (List String)) :
    (rows.map fun r => J.arr (r.map J.s)).mapM jRow = .ok rows := by
  induction rows with
  | nil => rfl
  | cons r rs ih =>
    rw [List.map_cons, List.mapM_cons, jRow_eval]
    simp only [ex_bind_ok]
    rw [ih]
    rfl

theorem jContent_eval (wh : Bool) (rows : List (List String)) :
    jContent (J.obj [("withHeadings", J.b wh),
      ("content", J.arr (rows.map fun r => J.arr (r.map J.s)))]) = .ok rows := by
  rw [jContent]
  rw [show (J.obj [("withHeadings", J.b wh),
      ("content", J.arr (rows.map fun r => J.arr (r.map J.s)))]).get "content"
      = some (J.arr (rows.map fun r => J.arr (r.map J.s))) from by
    simp [J.get, List.lookup]]
  exact mapM_jRow rows

theorem whD_eval (wh : Bool) (rows : List (List String)) :
    jTruthyD ((J.obj [("withHeadings", J.b wh),
      ("content", J.arr (rows.map fun r => J.arr (r.map J.s)))]).get "withHeadings") = wh := by
  simp [J.get, List.lookup, jTruthyD, jTruthy]

theorem to_markdown_eval (wh : Bool) (rows : List (List String)) :
    TableBlock.to_markdown (J.obj [("withHeadings", J.b wh),
      ("content", J.arr (rows.map fun r => J.arr (r.map J.s)))]) =
      .ok ("\n" ++
        (if !wh && !rows.isEmpty then
          tableRowLine (List.replicate (rows.headD []).length "") ++
            tableSep (rows.headD []).length
         else "") ++ tableRowsOut wh rows ++ "\n") := by
  rw [TableBlock.to_markdown, jContent_eval]
  simp only [ex_bind_ok]
  rw [whD_eval]
  rfl

theorem joinAll_rowlines_data (rows : List (List String)) :
    (joinAll (rows.map tableRowLine)).data
      = ((rows.map fun r => rowCoreD (r.map String.data)).map (· ++ ['\n'])).flatten := by
  induction rows with
  | nil => rfl
  | cons r rs ih =>
    rw [List.map_cons, joinAll_cons, String.data_append, rowline_data, ih]
    simp

theorem empty_data : ("" : String).data = [] := rfl

theorem md_data_true (r0 : List String) (rest : List (List String)) :
    ("\n" ++ "" ++ tableRowsOut true (r0 :: rest) ++ "\n").data
      = ('\n' :: (((rowCoreD (r0.map String.data) :: ('|' :: sepRepD r0.length)
            :: rest.map fun r => rowCoreD (r.map String.data)).map (· ++ ['\n'])).flatten))
        ++ ['\n'] := by
  rw [tableRowsOut]
  simp [String.data_append, nl_data, empty_data, rowline_data, sep_data,
    joinAll_rowlines_data, List.append_assoc]

theorem md_data_false (r0 : List String) (rest : List (List String)) :
    ("\n" ++ (tableRowLine (List.replicate r0.length "") ++ tableSep r0.length)
      ++ tableRowsOut false (r0 :: rest) ++ "\n").data
    = ('\n' :: (((rowCoreD (List.replicate r0.length [])
          :: ('|' :: sepRepD r0.length)
          :: (r0 :: rest).map fun r => rowCoreD (r.map String.data)).map (· ++ ['\n'])).flatten))
      ++ ['\n'] := by
  rw [tableRowsOut]
  simp [String.data_append, nl_data, empty_data, rowline_data, sep_data,
    joinAll_rowlines_data, List.append_assoc, List.map_replicate]

theorem map_cells_rows (rs : List (List String))
    (h : ∀ r ∈ rs, r ≠ [] ∧ ∀ c ∈ r, '|' ∉ c.data ∧ pyStrip c = c) :
    List.map tableCells (List.map (fun l => (⟨l⟩ : String))
      (List.map (fun r => rowCoreD (r.map String.data)) rs)) = rs := by
  induction rs with
  | nil => rfl
  | cons r rs2 ih =>
    simp only [List.map_cons]
    obtain ⟨hne, hcells⟩ := h r (by simp)
    rw [tableCells_rowCoreD r hne hcells, ih (fun x hx => h x (by simp [hx]))]

theorem replicate_any_empty (n : Nat) :
    (List.replicate n "").any (fun c => c ≠ "") = false := by
  induction n with
  | zero => rfl
  | succ k ih => simpa [List.replicate] using ih

theorem tableRoundTrip_false (r0 : List String) (rest : List (List String))
    (hrows : ∀ r ∈ r0 :: rest, r ≠ [] ∧ ∀ c ∈ r, '|' ∉ c.data ∧ '\n' ∉ c.data ∧ pyStrip c = c) :
    TableBlock.to_json
        (MDNode.mk none
          (some ("\n" ++ (tableRowLine (List.replicate r0.length "") ++ tableSep r0.length)
            ++ tableRowsOut false (r0 :: rest) ++ "\n"))
          none none false none none none none none none none none)
      = .ok [J.obj [("type", .s "table"),
             ("data", .obj [("content", .arr ((r0 :: rest).map fun r => .arr (r.map J.s))),
                            ("withHeadings", .b false)])]] := by
  have hn0 : r0.length ≠ 0 := by
    have := (hrows r0 (by simp)).1
    simpa [List.length_eq_zero] using this
  rw [TableBlock.to_json]
  rw [show (MDNode.mk none
        (some ("\n" ++ (tableRowLine (List.replicate r0.length "") ++ tableSep r0.length)
          ++ tableRowsOut false (r0 :: rest) ++ "\n"))
        none none false none none none none none none none none).valueD
      = ("\n" ++ (tableRowLine (List.replicate r0.length "") ++ tableSep r0.length)
          ++ tableRowsOut false (r0 :: rest) ++ "\n") from rfl]
  rw [strExt (md_data_false r0 rest)]
  rw [strip_split_lines _ (by simp)
    (by intro l hl
        simp only [List.mem_cons, List.mem_map] at hl
        rcases hl with rfl | rfl | ⟨r, hr, rfl⟩
        · exact rowCoreD_shape _
        · exact sepCore_shape r0.length hn0
        · exact rowCoreD_shape _)
    (by intro l hl
        simp only [List.mem_cons, List.mem_map] at hl
        rcases hl with rfl | rfl | ⟨r, hr, rfl⟩
        · exact rowCoreD_no_nl _ (by simp)
        · exact sepRepD_no_nl r0.length
        · exact rowCoreD_no_nl _ (by
            intro c hc
            simp only [List.mem_map] at hc
            obtain ⟨t, ht, rfl⟩ := hc
            exact ((hrows r (by simp [hr])).2 t ht).2.1))]
  simp only [List.map_cons]
  rw [tableLoop]
  rw [if_pos rfl]
  rw [show tableCells ⟨rowCoreD (List.replicate r0.length [])⟩
      = List.replicate r0.length "" from by
    have hmap : (List.replicate r0.length "").map String.data = List.replicate r0.length [] := by
      simp [List.map_replicate, empty_data]
    rw [← hmap]
    exact tableCells_rowCoreD _
      (by intro hnil; exact hn0 (by simpa using congrArg List.length hnil))
      (by intro c hc
          rw [List.eq_of_mem_replicate hc]
          exact ⟨by simp [empty_data], rfl⟩)]
  rw [replicate_any_empty]
  simp only [Bool.false_eq_true, if_false]
  rw [tableLoop]
  rw [if_neg (by omega), if_pos rfl]
  rw [tableLoop_ge2 _ 2 false [] (by omega) (by omega)]
  rw [show (({ data := rowCoreD (List.map String.data r0) } : String) ::
        List.map (fun l => ({ data := l } : String))
          (List.map (fun r => rowCoreD (List.map String.data r)) rest))
      = List.map (fun l => ({ data := l } : String))
          (List.map (fun r => rowCoreD (List.map String.data r)) (r0 :: rest)) from by simp]
  rw [map_cells_rows (r0 :: rest)
    (fun r hr => ⟨(hrows r hr).1, fun c hc => ⟨((hrows r hr).2 c hc).1, ((hrows r hr).2 c hc).2.2⟩⟩)]
  rfl

theorem tableRoundTrip_true (r0 : List String) (rest : List (List String))
    (hrows : ∀ r ∈ r0 :: rest, r ≠ [] ∧ ∀ c ∈ r, '|' ∉ c.data ∧ '\n' ∉ c.data ∧ pyStrip c = c)
    (hany : r0.any (fun c => c ≠ "") = true) :
    TableBlock.to_json
        (MDNode.mk none
          (some ("\n" ++ "" ++ tableRowsOut true (r0 :: rest) ++ "\n"))
          none none false none none none none none none none none)
      = .ok [J.obj [("type", .s "table"),
             ("data", .obj [("content", .arr ((r0 :: rest).map fun r => .arr (r.map J.s))),
                            ("withHeadings", .b true)])]] := by
  have hn0 : r0.length ≠ 0 := by
    have := (hrows r0 (by simp)).1
    simpa [List.length_eq_zero] using this
  have hcellsR0 : tableCells ⟨rowCoreD (List.map String.data r0)⟩ = r0 :=
    tableCells_rowCoreD r0 (hrows r0 (by simp)).1
      (fun c hc => ⟨((hrows r0 (by simp)).2 c hc).1, ((hrows r0 (by simp)).2 c hc).2.2⟩)
  rw [TableBlock.to_json]
  rw [show (MDNode.mk none
        (some ("\n" ++ "" ++ tableRowsOut true (r0 :: rest) ++ "\n"))
        none none false none none none none none none none none).valueD
      = ("\n" ++ "" ++ tableRowsOut true (r0 :: rest) ++ "\n") from rfl]
  rw [strExt (md_data_true r0 rest)]
  rw [strip_split_lines _ (by simp)
    (by intro l hl
        simp only [List.mem_cons, List.mem_map] at hl
        rcases hl with rfl | rfl | ⟨r, hr, rfl⟩
        · exact rowCoreD_shape _
        · exact sepCore_shape r0.length hn0
        · exact rowCoreD_shape _)
    (by intro l hl
        simp only [List.mem_cons, List.mem_map] at hl
        rcases hl with rfl | rfl | ⟨r, hr, rfl⟩
        · exact rowCoreD_no_nl _ (by
            intro c hc
            simp only [List.mem_map] at hc
            obtain ⟨t, ht, rfl⟩ := hc
            exact ((hrows r0 (by simp)).2 t ht).2.1)
        · exact sepRepD_no_nl r0.length
        · exact rowCoreD_no_nl _ (by
            intro c hc
            simp only [List.mem_map] at hc
            obtain ⟨t, ht, rfl⟩ := hc
            exact ((hrows r (by simp [hr])).2 t ht).2.1))]
  simp only [List.map_cons]
  rw [tableLoop]
  rw [if_pos rfl]
  rw [hcellsR0, hany]
  simp only [if_true]
  rw [tableLoop]
  rw [if_neg (by omega), if_pos rfl]
  rw [tableLoop_ge2 _ 2 true ([] ++ [r0]) (by omega) (by omega)]
  rw [show List.map (fun l => ({ data := l } : String))
        (List.map (fun r => rowCoreD (List.map String.data r)) rest)
      = List.map (fun l => ({ data := l } : String))
          (List.map (fun r => rowCoreD (List.map String.data r)) rest) from rfl]
  rw [map_cells_rows rest
    (fun r hr => ⟨(hrows r (by simp [hr])).1,
      fun c hc => ⟨((hrows r (by simp [hr])).2 c hc).1, ((hrows r (by simp [hr])).2 c hc).2.2⟩⟩)]
  rfl

/-- Claim C4 counterexample: a table whose header row is all-empty (cells
contain no pipe or newline) does not round-trip: on re-parsing, the
all-empty header is discarded, so `withHeadings` flips to false and the
header row is lost from `content`. -/
theorem claim_C4_counterexample :
    TableBlock.to_markdown (J.obj [("withHeadings", .b true),
      ("content", .arr [.arr [.s "", .s ""], .arr [.s "1", .s "2"]])]) =
      .ok "\n|  |  |\n| - | - |\n| 1 | 2 |\n\n" ∧
    TableBlock.to_json
        (MDNode.mk none (some "\n|  |  |\n| - | - |\n| 1 | 2 |\n\n")
          none none false none none none none none none none none) =
      .ok [J.obj [("type", .s "table"),
             ("data", .obj [("content", .arr [.arr [.s "1", .s "2"]]),
                            ("withHeadings", .b false)])]] ∧
    (J.obj [("type", .s "table"),
            ("data", .obj [("content", .arr [.arr [.s "1", .s "2"]]),
                           ("withHeadings", .b false)])]) ≠
      (J.obj [("type", .s "table"),
              ("data", .obj [("content", .arr [.arr [.s "", .s ""], .arr [.s "1", .s "2"]]),
                             ("withHeadings", .b true)])]) := by
  refine ⟨rfl, rfl, by simp⟩

/-- Claim C4 (amended): the table round-trip holds for every data value
whose rows are non-empty and whose cells contain no pipe and no newline and
are strip-invariant, provided that with `withHeadings = true` the content is
non-empty and its first row has at least one non-empty cell: serializing
with `to_markdown` and re-parsing the resulting text with `to_json` restores
the same content and the same `withHeadings` flag (with `withHeadings =
false` the synthesized blank header and separator rows are discarded, with
`withHeadings = true` the separator is skipped and the header row is
restored). -/
theorem claim_C4_thm (wh : Bool) (rows : List (List String)) (md : String)
    (hrows : ∀ r ∈ rows, r ≠ [] ∧ ∀ c ∈ r, '|' ∉ c.data ∧ '\n' ∉ c.data ∧ pyStrip c = c)
    (hwh : wh = true → ∃ r0 rest, rows = r0 :: rest ∧ r0.any (fun c => c ≠ "") = true)
    (hmd : TableBlock.to_markdown (J.obj [("withHeadings", .b wh),
        ("content", .arr (rows.map fun r => .arr (r.map J.s)))]) = .ok md) :
    TableBlock.to_json
        (MDNode.mk none (some md) none none false none none none none none none none none)
      = .ok [J.obj [("type", .s "table"),
             ("data", .obj [("content", .arr (rows.map fun r => .arr (r.map J.s))),
                            ("withHeadings", .b wh)])]] := by
  rw [to_markdown_eval] at hmd
  injection hmd with hmd2
  subst hmd2
  cases wh with
  | true =>
    obtain ⟨r0, rest, rfl, hany⟩ := hwh rfl
    simp only [Bool.not_true, Bool.false_and, Bool.false_eq_true, if_false]
    exact tableRoundTrip_true r0 rest hrows hany
  | false =>
    cases rows with
    | nil => rfl
    | cons r0 rest =>
      rw [if_pos (show (!false && !((r0 :: rest).isEmpty)) = true from by simp)]
      rw [List.headD_cons]
      exact tableRoundTrip_false r0 rest hrows

/-- Witness for C4 (amended) at a concrete header-present table. -/
theorem claim_C4_witness :
    TableBlock.to_json
        (MDNode.mk none (some "\n| A | B |\n| - | - |\n| 1 | 2 |\n\n")
          none none false none none none none none none none none)
      = .ok [J.obj [("type", .s "table"),
             ("data", .obj [("content", .arr ([["A", "B"], ["1", "2"]].map fun r => .arr (r.map J.s))),
                            ("withHeadings", .b true)])]] :=
  claim_C4_thm true [["A", "B"], ["1", "2"]] "\n| A | B |\n| - | - |\n| 1 | 2 |\n\n"
    (by decide)
    (fun _ => ⟨["A", "B"], [["1", "2"]], rfl, by decide⟩)
    rfl


/- ### Claim C1: paragraph splitting -/

/-- The paragraph child scan over plain children: no html or image types, and
every rendering is non-table-like.  The scan accumulates all renderings and
flushes once at the end (as a paragraph block, and only when non-empty). -/
theorem paraScan_plain (g : Nat) (node : MDNode) :
    ∀ (cs : List (MDNode × String)) (current : String) (res : List J),
      (∀ p ∈ cs, p.1.type ≠ some "html" ∧ p.1.type ≠ some "image" ∧
        ParagraphBlock.to_text g p.1 = .ok p.2 ∧ tableLike p.2 = false) →
      paraScan (g + 1) node (cs.map Prod.fst) current false res =
        (if current ++ joinAll (cs.map Prod.snd) = "" then .ok res
         else .ok (res ++ [paragraph_block (current ++ joinAll (cs.map Prod.snd))])) := by
  intro cs
  induction cs with
  | nil =>
    intro current res _
    rw [List.map_nil, paraScan]
    by_cases hc : current = "" <;>
      simp [hc, joinAll, joinSep]
  | cons p cs ih =>
    intro current res hall
    obtain ⟨c, s⟩ := p
    obtain ⟨hh, hi, ht, htl⟩ := hall (c, s) (by simp)
    have hrest : ∀ p ∈ cs, p.1.type ≠ some "html" ∧ p.1.type ≠ some "image" ∧
        ParagraphBlock.to_text g p.1 = .ok p.2 ∧ tableLike p.2 = false :=
      fun p hp => hall p (by simp [hp])
    have hbeq : (c.type == some "html") = false := beq_eq_false_iff_ne.mpr hh
    rw [List.map_cons, paraScan]
    simp only [hbeq, Bool.or_false]
    rw [if_neg (fun hcontra => hh hcontra.1), if_neg hi, ht]
    simp only [ex_bind_ok, htl, Bool.false_eq_true, if_false]
    rw [ih (current ++ s) res hrest]
    rw [List.map_cons, joinAll_cons, ← String.append_assoc]

/-- Claim C1 counterexample: in the children run
`[text "|a|", image, text "b"]` every text child renders to non-empty inline
text, yet the first produced block is a table block, not a paragraph block
carrying "|a|": a rendered text whose trimmed form is pipe-bracketed is
delegated to the table parser. -/
theorem claim_C1_counterexample :
    ParagraphBlock.to_json 5
        (parentNode "paragraph" [textNode "|a|", imageNode "/i.png" "cap", textNode "b"]) =
      .ok [.obj [("type", .s "table"),
                 ("data", .obj [("content", .arr [.arr [.s "a"]]), ("withHeadings", .b true)])],
           .obj [("type", .s "image"),
                 ("data", .obj [("caption", .s "cap"), ("file", .obj [("url", .s "/i.png")])])],
           paragraph_block "b"] ∧
    (J.obj [("type", .s "table"),
            ("data", .obj [("content", .arr [.arr [.s "a"]]), ("withHeadings", .b true)])]) ≠
      paragraph_block "|a|" := by
  constructor
  · simp [ParagraphBlock.to_json, paraScan, ParagraphBlock.to_text, default_to_text, pscList,
      process_styled_content, pscWrapper, parentNode, textNode, imageNode, MDNode.children,
      MDNode.childrenD, MDNode.type, MDNode.value, MDNode.valueD, MDNode.url, MDNode.alt,
      MDNode.caption, lookupTag, BLOCKS, block, dictInsert, applyWrapper, isWrapperType,
      List.lookup, tableLike, pyStrip, pyStripL, pyWS, sStarts, sEnds, startsL,
      ImageBlock.to_json, ImageBlock.to_textS, jOfOptS, TableBlock.to_json, tableLoop,
      tableCells, pySplit, splitChL, paragraph_block, raw_block]
  · simp [paragraph_block]

/-- Claim C1 (amended): a paragraph whose children are exactly
[text, image, text], with both text children rendering to non-empty inline
text whose trimmed form is not pipe-bracketed, yields exactly the three
blocks [paragraph, image, paragraph] in order; and a paragraph whose
children are all plain (no html type, no image type, no pipe-bracketed
rendering) with a non-empty concatenated rendering yields exactly one
paragraph block carrying the concatenation. -/
theorem claim_C1_thm :
    (∀ (g : Nat) (node t1 img t2 : MDNode) (s1 s2 : String),
        node.children = some [t1, img, t2] →
        t1.type = some "text" → img.type = some "image" → t2.type = some "text" →
        ParagraphBlock.to_text g t1 = .ok s1 → s1 ≠ "" → tableLike s1 = false →
        ParagraphBlock.to_text g t2 = .ok s2 → s2 ≠ "" → tableLike s2 = false →
        ParagraphBlock.to_json (g + 2) node =
          .ok ([paragraph_block s1] ++ ImageBlock.to_json img ++ [paragraph_block s2])) ∧
    (∀ (g : Nat) (node : MDNode) (cs : List (MDNode × String)),
        node.children = some (cs.map Prod.fst) →
        (∀ p ∈ cs, p.1.type ≠ some "html" ∧ p.1.type ≠ some "image" ∧
          ParagraphBlock.to_text g p.1 = .ok p.2 ∧ tableLike p.2 = false) →
        joinAll (cs.map Prod.snd) ≠ "" →
        ParagraphBlock.to_json (g + 2) node =
          .ok [paragraph_block (joinAll (cs.map Prod.snd))]) := by
  constructor
  · intro g node t1 img t2 s1 s2 hch ht1 himg ht2 hs1 hs1ne hs1tl hs2 hs2ne hs2tl
    rw [ParagraphBlock.to_json]
    have hcd : node.childrenD = [t1, img, t2] := by simp [MDNode.childrenD, hch]
    rw [hcd]
    rw [paraScan]
    have hbeq1 : (t1.type == some "html") = false := by simp [ht1]
    simp only [hbeq1, Bool.or_false]
    rw [if_neg (by simp [ht1]), if_neg (by simp [ht1]), hs1]
    simp only [ex_bind_ok, hs1tl, Bool.false_eq_true, if_false]
    rw [paraScan]
    have hbeq2 : (img.type == some "html") = false := by simp [himg]
    simp only [hbeq2, Bool.or_false]
    rw [if_neg (by simp [himg]), if_pos himg, if_pos (show "" ++ s1 ≠ "" by simpa using hs1ne)]
    rw [show ([t2] : List MDNode) = ([(t2, s2)].map Prod.fst) from rfl]
    rw [paraScan_plain g node [(t2, s2)] "" _
      (by intro p hp; simp at hp; subst hp; exact ⟨by simp [ht2], by simp [ht2], hs2, hs2tl⟩)]
    rw [if_neg (by simpa [joinAll_cons, joinAll, joinSep] using hs2ne)]
    simp [joinAll_cons, joinAll, joinSep]
  · intro g node cs hch hall hne
    rw [ParagraphBlock.to_json]
    have hcd : node.childrenD = cs.map Prod.fst := by simp [MDNode.childrenD, hch]
    rw [hcd]
    rw [paraScan_plain g node cs "" [] hall]
    rw [if_neg (by simpa using hne)]
    simp

/-- Witness for C1 (amended) at the spec's concrete splitting scenario:
children [text "before", image(/i.png, "cap"), text "after"]. -/
theorem claim_C1_witness :
    ParagraphBlock.to_json 5
        (parentNode "paragraph" [textNode "before", imageNode "/i.png" "cap", textNode "after"]) =
      .ok ([paragraph_block "before"] ++ ImageBlock.to_json (imageNode "/i.png" "cap") ++
        [paragraph_block "after"]) :=
  claim_C1_thm.1 3 _ (textNode "before") (imageNode "/i.png" "cap") (textNode "after")
    "before" "after" rfl rfl rfl rfl
    (by simp [ParagraphBlock.to_text, default_to_text, pscList, process_styled_content,
      pscWrapper, textNode, MDNode.children, MDNode.childrenD, MDNode.type, MDNode.value,
      MDNode.valueD, MDNode.url, lookupTag, BLOCKS, block, dictInsert, applyWrapper,
      isWrapperType, List.lookup])
    (by decide) (by decide)
    (by simp [ParagraphBlock.to_text, default_to_text, pscList, process_styled_content,
      pscWrapper, textNode, MDNode.children, MDNode.childrenD, MDNode.type, MDNode.value,
      MDNode.valueD, MDNode.url, lookupTag, BLOCKS, block, dictInsert, applyWrapper,
      isWrapperType, List.lookup])
    (by decide) (by decide)

/- ### Claim C2: checklist inference -/

theorem grandScan_spec (h : Nat) :
    ∀ (ges : List (MDNode × (String ⊕ List J))) (content : String) (sub : List J) (cbc : Bool),
      (∀ e ∈ ges, geWF h e) →
      grandScan (h + 1) (ges.map Prod.fst) content sub cbc =
        .ok (content ++ joinAll (ges.map fun e => geText e.2),
             sub ++ (ges.map fun e => geItems e.2).flatten,
             cbc && ges.all fun e => geOK e.2) := by
  intro ges
  induction ges with
  | nil =>
    intro content sub cbc _
    rw [List.map_nil, grandScan]
    simp [joinAll, joinSep]
  | cons e rest ih =>
    intro content sub cbc hall
    have hwf := hall e (by simp)
    have hrest : ∀ x ∈ rest, geWF h x := fun x hx => hall x (by simp [hx])
    rw [List.map_cons, grandScan]
    rcases he : e.2 with s | its
    · rw [geWF, he] at hwf
      obtain ⟨htype, htext⟩ := hwf
      rw [if_pos htype, htext]
      simp only [ex_bind_ok]
      rw [ih (content ++ s) sub (cbc && isChecklistS s) hrest]
      simp [he, geText, geOK, geItems, joinAll_cons, String.append_assoc, Bool.and_assoc]
    · rw [geWF, he] at hwf
      obtain ⟨htype, inner, hjson, hex⟩ := hwf
      rw [if_neg (by simp [htype]), if_pos htype, hjson]
      simp only [ex_bind_ok]
      rw [hex]
      simp only [ex_bind_ok]
      rw [ih content (sub ++ its) false hrest]
      simp [he, geText, geOK, geItems, joinAll_cons, List.append_assoc]

theorem listScan_spec (h : Nat) :
    ∀ (its : List (MDNode × List (MDNode × (String ⊕ List J))))
      (cbc : Bool) (acc : List (String × List J)),
      (∀ it ∈ its, itWF h it) →
      listScan (h + 2) (its.map Prod.fst) cbc acc =
        .ok (cbc && its.all itOK, acc ++ its.map fun it => (itContent it, itSubs it)) := by
  intro its
  induction its with
  | nil =>
    intro cbc acc _
    rw [List.map_nil, listScan]
    simp
  | cons it rest ih =>
    intro cbc acc hall
    obtain ⟨hch, hges⟩ := hall it (by simp)
    have hrest : ∀ x ∈ rest, itWF h x := fun x hx => hall x (by simp [hx])
    rw [List.map_cons, listScan]
    simp only [hch]
    rw [grandScan_spec h it.2 "" [] cbc hges]
    simp only [ex_bind_ok]
    rw [ih (cbc && it.2.all fun e => geOK e.2) (acc ++ [("" ++ joinAll (it.2.map fun e => geText e.2), [] ++ (it.2.map fun e => geItems e.2).flatten)]) hrest]
    simp [itContent, itSubs, itOK, Bool.and_assoc]

/-- Claim C2 counterexample: a single item holding two paragraphs "[x] a"
and "b".  The concatenated content "[x] ab" starts with "[x]" and there is
no nested sublist, so the claim demands a checklist block; the source checks
each paragraph's content separately, the second fails the marker test, and a
list block is produced. -/
theorem claim_C2_counterexample :
    ListBlock.to_json 7
        (parentNode "list"
          [parentNode "listItem"
            [parentNode "paragraph" [textNode "[x] a"],
             parentNode "paragraph" [textNode "b"]]]) =
      .ok [listJ false [("[x] ab", [])]] ∧
    listJ false [("[x] ab", [])] ≠ checklistJ [("[x] ab", [])] := by
  constructor
  · simp [ListBlock.to_json, listScan, grandScan, ParagraphBlock.to_text, default_to_text,
      pscList, process_styled_content, pscWrapper, parentNode, textNode, MDNode.children,
      MDNode.childrenD, MDNode.type, MDNode.typeD, MDNode.value, MDNode.valueD, MDNode.url,
      MDNode.ordered, lookupTag, BLOCKS, block, dictInsert, applyWrapper, isWrapperType,
      List.lookup, isChecklistS, pyStrip, pyStripL, pyWS, sStarts, startsL, listJ, listItemJ]
  · simp [listJ, checklistJ]

/-- Claim C2 (amended): when every grandchild of every top-level item is a
paragraph whose rendered content passes the checklist marker test (trimmed
text starts with "[ ]" or "[x]"), the result is a single checklist block
whose items carry checked = content.startswith("[x]") (unstripped) and
text = content with a leading "[ ] " and then a leading "[x] " removed; and
whenever some item has a nested list grandchild (all grandchildren being
paragraphs or lists and the nested conversions succeeding), the result is a
single list block, even if every paragraph content looks checklist-like. -/
theorem claim_C2_thm :
    (∀ (h : Nat) (node : MDNode) (its : List (MDNode × List (MDNode × (String ⊕ List J)))),
        node.children = some (its.map Prod.fst) →
        (∀ it ∈ its, itWF h it) →
        (∀ it ∈ its, ∀ e ∈ it.2, ∃ s, e.2 = Sum.inl s ∧ isChecklistS s = true) →
        ListBlock.to_json (h + 3) node =
          .ok [checklistJ (its.map fun it => (itContent it, itSubs it))]) ∧
    (∀ (h : Nat) (node : MDNode) (its : List (MDNode × List (MDNode × (String ⊕ List J)))),
        node.children = some (its.map Prod.fst) →
        (∀ it ∈ its, itWF h it) →
        (∃ it ∈ its, ∃ e ∈ it.2, ∃ l, e.2 = Sum.inr l) →
        ListBlock.to_json (h + 3) node =
          .ok [listJ node.ordered (its.map fun it => (itContent it, itSubs it))]) := by
  constructor
  · intro h node its hch hwf hflag
    rw [ListBlock.to_json]
    simp only [hch]
    rw [listScan_spec h its true [] hwf]
    have hall : its.all itOK = true := by
      rw [List.all_eq_true]
      intro it hit
      rw [itOK, List.all_eq_true]
      intro e he
      obtain ⟨s, hs, hcl⟩ := hflag it hit e he
      simp [geOK, hs, hcl]
    simp [hall]
  · intro h node its hch hwf hnest
    rw [ListBlock.to_json]
    simp only [hch]
    rw [listScan_spec h its true [] hwf]
    obtain ⟨it, hit, e, he, l, hl⟩ := hnest
    have hfalse : its.all itOK = false := by
      apply Bool.eq_false_iff.mpr
      intro hall
      rw [List.all_eq_true] at hall
      have h1 := hall it hit
      rw [itOK, List.all_eq_true] at h1
      have h2 := h1 e he
      rw [hl] at h2
      simp [geOK] at h2
    simp [hfalse]

/-- Witness for C2 (amended) at the spec's checklist scenario: items
"[ ] a" and "[x] b" yield a checklist whose items are ("a", unchecked) and
("b", checked). -/
theorem claim_C2_witness :
    ListBlock.to_json 7
        (parentNode "list"
          [parentNode "listItem" [parentNode "paragraph" [textNode "[ ] a"]],
           parentNode "listItem" [parentNode "paragraph" [textNode "[x] b"]]]) =
      .ok [checklistJ
            (([(parentNode "listItem" [parentNode "paragraph" [textNode "[ ] a"]],
                [(parentNode "paragraph" [textNode "[ ] a"], Sum.inl "[ ] a")]),
               (parentNode "listItem" [parentNode "paragraph" [textNode "[x] b"]],
                [(parentNode "paragraph" [textNode "[x] b"], Sum.inl "[x] b")])] :
              List (MDNode × List (MDNode × (String ⊕ List J)))).map
              fun it => (itContent it, itSubs it))] := by
  apply claim_C2_thm.1 4
  · rfl
  · intro it hit
    simp only [List.mem_cons, List.not_mem_nil, or_false] at hit
    rcases hit with hit | hit <;>
      · subst hit
        refine ⟨rfl, ?_⟩
        intro e he
        simp only [List.mem_cons, List.not_mem_nil, or_false] at he
        subst he
        refine ⟨rfl, ?_⟩
        simp [ParagraphBlock.to_text, default_to_text, pscList, process_styled_content,
          pscWrapper, parentNode, textNode, MDNode.children, MDNode.childrenD, MDNode.type,
          MDNode.value, MDNode.valueD, MDNode.url, lookupTag, BLOCKS, block, dictInsert,
          applyWrapper, isWrapperType, List.lookup]
  · intro it hit e he
    simp only [List.mem_cons, List.not_mem_nil, or_false] at hit
    rcases hit with hit | hit <;>
      · subst hit
        simp only [List.mem_cons, List.not_mem_nil, or_false] at he
        subst he
        exact ⟨_, rfl, by decide⟩

/- ### Claim C3: embedded custom-tag markers inside a paragraph -/

/-- Decoding the paired `<editorjs type="attaches" ...>` run at a concrete
input: attributes and enclosed text are parsed, and the attaches converter
produces the block. -/
theorem custom_attaches_eval (f : Nat) : EditorJSCustom.to_json (f + 3)
    (childrenOnlyNode [htmlNode "<editorjs type=\"attaches\" file=\"f.txt\">", textNode "doc"]) =
    .ok [.obj [("type", .s "attaches"),
               ("data", .obj [("file", .obj [("url", .s "f.txt")]), ("title", .s "doc")])]] := by
  rw [EditorJSCustom.to_json]
  rw [show getValues (childrenOnlyNode [htmlNode "<editorjs type=\"attaches\" file=\"f.txt\">",
        textNode "doc"]).childrenD
      = .ok ["<editorjs type=\"attaches\" file=\"f.txt\">", "doc"] from rfl]
  simp only [ex_bind_ok]
  rw [show parse_html (joinAll ["<editorjs type=\"attaches\" file=\"f.txt\">", "doc"])
      = ([("type", "attaches"), ("file", "f.txt")], some "doc") from rfl]
  rw [show lookupTag BLOCKS
        (((([("type", "attaches"), ("file", "f.txt")] : List (String × String))).lookup "type").getD "")
      = some .attaches from rfl]
  simp [tagToJson, attrsNode, AttachmentBlock.to_json, List.lookup, MDNode.file, MDNode.body]

/-- The paragraph scan on children `[t, open, body, close]` where `t` is a
plain accumulated child and the run is a paired embedded tag: the custom
blocks are emitted first (without flushing), the three marker nodes are
consumed, and the accumulated text is flushed after the scan as a raw-html
block (the html-typed marker set the html flag). -/
theorem para_custom_paired (g : Nat) (node t openN bodyN closeN : MDNode) (s : String) (bs : List J)
    (hch : node.children = some [t, openN, bodyN, closeN])
    (hth : t.type ≠ some "html") (hti : t.type ≠ some "image")
    (hs : ParagraphBlock.to_text g t = .ok s) (htl : tableLike s = false) (hne : s ≠ "")
    (ho : openN.type = some "html")
    (hstart : sStarts "<editorjs" openN.valueD = true)
    (hend : sEnds "/>" openN.valueD = false)
    (hcustom : EditorJSCustom.to_json g (childrenOnlyNode [openN, bodyN]) = .ok bs) :
    ParagraphBlock.to_json (g + 2) node = .ok (bs ++ [raw_block s]) := by
  rw [ParagraphBlock.to_json]
  have hcd : node.childrenD = [t, openN, bodyN, closeN] := by simp [MDNode.childrenD, hch]
  rw [hcd, paraScan]
  have hbeq1 : (t.type == some "html") = false := beq_eq_false_iff_ne.mpr hth
  simp only [hbeq1, Bool.or_false, Bool.false_or]
  rw [if_neg (fun hc => hth hc.1), if_neg hti, hs]
  simp only [ex_bind_ok, htl, Bool.false_eq_true, if_false]
  rw [paraScan]
  have hbeq2 : (openN.type == some "html") = true := by simp [ho]
  simp only [hbeq2, Bool.or_true, Bool.false_or]
  rw [if_pos ⟨ho, hstart⟩, hend]
  rw [if_neg (by simp)]
  simp only [List.take, List.drop]
  rw [hcustom]
  simp only [ex_bind_ok]
  rw [paraScan]
  rw [if_pos (show "" ++ s ≠ "" by simpa using hne)]
  simp

/-- Claim C3 counterexample: with children
[text "before", open tag, body "doc", close tag], the accumulated text is
NOT flushed before the decoded custom block: the result places the attaches
block first and the text after it — and as a raw-html block, since the
html-typed marker set the html flag.  The first emitted block is not any
flush of "before". -/
theorem claim_C3_counterexample :
    ParagraphBlock.to_json 5
        (parentNode "paragraph"
          [textNode "before", htmlNode "<editorjs type=\"attaches\" file=\"f.txt\">",
           textNode "doc", htmlNode "</editorjs>"]) =
      .ok [.obj [("type", .s "attaches"),
                 ("data", .obj [("file", .obj [("url", .s "f.txt")]), ("title", .s "doc")])],
           raw_block "before"] ∧
    (J.obj [("type", .s "attaches"),
            ("data", .obj [("file", .obj [("url", .s "f.txt")]), ("title", .s "doc")])]) ≠
      paragraph_block "before" ∧
    (J.obj [("type", .s "attaches"),
            ("data", .obj [("file", .obj [("url", .s "f.txt")]), ("title", .s "doc")])]) ≠
      raw_block "before" := by
  refine ⟨?_, by simp [paragraph_block], by simp [raw_block]⟩
  exact para_custom_paired 3
    (parentNode "paragraph"
      [textNode "before", htmlNode "<editorjs type=\"attaches\" file=\"f.txt\">",
       textNode "doc", htmlNode "</editorjs>"])
    (textNode "before")
    (htmlNode "<editorjs type=\"attaches\" file=\"f.txt\">") (textNode "doc")
    (htmlNode "</editorjs>") "before"
    [.obj [("type", .s "attaches"),
           ("data", .obj [("file", .obj [("url", .s "f.txt")]), ("title", .s "doc")])]]
    rfl (by decide) (by decide)
    (by simp [ParagraphBlock.to_text, default_to_text, pscList, process_styled_content,
      pscWrapper, textNode, MDNode.children, MDNode.childrenD, MDNode.type, MDNode.value,
      MDNode.valueD, MDNode.url, lookupTag, BLOCKS, block, dictInsert, applyWrapper,
      isWrapperType, List.lookup])
    (by decide) (by decide) (by decide) (by decide) (by decide)
    (custom_attaches_eval 0)

/-- Claim C3 (amended): when a recognized paired embedded-custom-tag run
(open tag, body, close tag) follows a plain child whose rendered text has
been accumulated, `ParagraphBlock.to_json` does not flush the accumulated
text first: it emits the decoded custom block(s) as flat records
immediately, consumes all three marker nodes, and keeps accumulating; the
pending text is flushed after the scan, as a raw-HTML block because the
html-typed marker child set the html flag. -/
theorem claim_C3_thm (g : Nat) (node t openN bodyN closeN : MDNode) (s : String) (bs : List J)
    (hch : node.children = some [t, openN, bodyN, closeN])
    (hth : t.type ≠ some "html") (hti : t.type ≠ some "image")
    (hs : ParagraphBlock.to_text g t = .ok s) (htl : tableLike s = false) (hne : s ≠ "")
    (ho : openN.type = some "html")
    (hstart : sStarts "<editorjs" openN.valueD = true)
    (hend : sEnds "/>" openN.valueD = false)
    (hcustom : EditorJSCustom.to_json g (childrenOnlyNode [openN, bodyN]) = .ok bs) :
    ParagraphBlock.to_json (g + 2) node = .ok (bs ++ [raw_block s]) :=
  para_custom_paired g node t openN bodyN closeN s bs hch hth hti hs htl hne ho hstart hend hcustom

/-- Witness for C3 (amended) at the concrete paired attaches run. -/
theorem claim_C3_witness :
    ParagraphBlock.to_json 6
        (parentNode "paragraph"
          [textNode "intro", htmlNode "<editorjs type=\"attaches\" file=\"f.txt\">",
           textNode "doc", htmlNode "</editorjs>"]) =
      .ok ([.obj [("type", .s "attaches"),
                  ("data", .obj [("file", .obj [("url", .s "f.txt")]), ("title", .s "doc")])]] ++
        [raw_block "intro"]) :=
  claim_C3_thm 4
    (parentNode "paragraph"
      [textNode "intro", htmlNode "<editorjs type=\"attaches\" file=\"f.txt\">",
       textNode "doc", htmlNode "</editorjs>"])
    (textNode "intro")
    (htmlNode "<editorjs type=\"attaches\" file=\"f.txt\">") (textNode "doc")
    (htmlNode "</editorjs>") "intro"
    [.obj [("type", .s "attaches"),
           ("data", .obj [("file", .obj [("url", .s "f.txt")]), ("title", .s "doc")])]]
    rfl (by decide) (by decide)
    (by simp [ParagraphBlock.to_text, default_to_text, pscList, process_styled_content,
      pscWrapper, textNode, MDNode.children, MDNode.childrenD, MDNode.type, MDNode.value,
      MDNode.valueD, MDNode.url, lookupTag, BLOCKS, block, dictInsert, applyWrapper,
      isWrapperType, List.lookup])
    (by decide) (by decide) (by decide) (by decide) (by decide)
    (custom_attaches_eval 1)

/- ### Claim C6: QuoteBlock -/

theorem quote_to_json_eq (f : Nat) (node : MDNode) (s : String)
    (h : QuoteBlock.to_text f node = .ok s) :
    QuoteBlock.to_json (f + 1) node =
      .ok [quoteJ ((citeFindS (pyReplace "\n" "<br/>\n" s)).getD "")
            (match citeFindS (pyReplace "\n" "<br/>\n" s) with
             | some _ => citeSubS (pyReplace "\n" "<br/>\n" s)
             | none => pyReplace "\n" "<br/>\n" s)] := by
  rw [QuoteBlock.to_json, h]
  simp only [ex_bind_ok]
  rcases hc : citeFindS (pyReplace "\n" "<br/>\n" s) with _ | cap <;> simp [hc]

/-- Claim C6: a quote node's children are rendered to text, newlines become
"<br/>\n", the capture of the first (lazy) cite match becomes the caption
(empty when there is no match), the cite-tag matches are stripped from the
text, and a single left-aligned quote block results; in particular the text
"Deep thought.<cite>Ada</cite>" yields caption "Ada" and text
"Deep thought.". -/
theorem claim_C6 :
    (∀ (f : Nat) (node : MDNode) (s : String),
        QuoteBlock.to_text f node = .ok s →
        QuoteBlock.to_json (f + 1) node =
          .ok [quoteJ ((citeFindS (pyReplace "\n" "<br/>\n" s)).getD "")
                (match citeFindS (pyReplace "\n" "<br/>\n" s) with
                 | some _ => citeSubS (pyReplace "\n" "<br/>\n" s)
                 | none => pyReplace "\n" "<br/>\n" s)]) ∧
    QuoteBlock.to_json 6 (parentNode "blockquote" [textNode "Deep thought.<cite>Ada</cite>"]) =
      .ok [quoteJ "Ada" "Deep thought."] := by
  constructor
  · exact quote_to_json_eq
  · have htext : QuoteBlock.to_text 5
        (parentNode "blockquote" [textNode "Deep thought.<cite>Ada</cite>"]) =
          .ok "Deep thought.<cite>Ada</cite>" := by
      simp [QuoteBlock.to_text, default_to_text, pscList, process_styled_content, pscWrapper,
        parentNode, textNode, MDNode.children, MDNode.childrenD, MDNode.type, MDNode.value,
        MDNode.valueD, MDNode.url, lookupTag, BLOCKS, block, dictInsert, applyWrapper,
        isWrapperType, List.lookup]
    have := quote_to_json_eq 5 _ _ htext
    rw [this]
    have hrep : pyReplace "\n" "<br/>\n" "Deep thought.<cite>Ada</cite>" =
        "Deep thought.<cite>Ada</cite>" := by
      simp [pyReplace, replaceL, startsL]
    rw [hrep]
    rw [show citeFindS "Deep thought.<cite>Ada</cite>" = some "Ada" from by decide]
    have hsub : citeSubS "Deep thought.<cite>Ada</cite>" = "Deep thought." := by
      simp [citeSubS, citeSubL, startsL, citeCapture]
    rw [hsub]
    rfl

/-- Witness for C6: the specification instantiated at a quote node holding a
single literal text child. -/
theorem claim_C6_witness :
    QuoteBlock.to_json 5 (parentNode "blockquote" [textNode "thinking"]) =
      .ok [quoteJ ((citeFindS (pyReplace "\n" "<br/>\n" "thinking")).getD "")
            (match citeFindS (pyReplace "\n" "<br/>\n" "thinking") with
             | some _ => citeSubS (pyReplace "\n" "<br/>\n" "thinking")
             | none => pyReplace "\n" "<br/>\n" "thinking")] :=
  claim_C6.1 4 _ "thinking" (by
    simp [QuoteBlock.to_text, default_to_text, pscList, process_styled_content, pscWrapper,
      parentNode, textNode, MDNode.children, MDNode.childrenD, MDNode.type, MDNode.value,
      MDNode.valueD, MDNode.url, lookupTag, BLOCKS, block, dictInsert, applyWrapper,
      isWrapperType, List.lookup])

/- ### Claim C7: the registry -/

/-- Claim C7 counterexample: the register operation is a plain dict
assignment, so registering a second converter under an existing name
silently rebinds it; lookup then returns the later converter, not the first
one, and no error is raised. -/
theorem claim_C7_counterexample :
    lookupTag (block ["x"] .paragraph (block ["x"] .heading [])) "x" = some .paragraph ∧
    BlockTag.paragraph ≠ BlockTag.heading := by decide

/-- Claim C7 (amended): registering under an existing name silently
overwrites: the register operation is total and lookup afterwards returns
the converter most recently registered under the name.  In the registry the
module actually builds, every name is registered exactly once, so each
lookup returns the sole (first) converter registered under it. -/
theorem claim_C7_thm :
    (∀ (m : Registry) (k : String) (v : BlockTag), lookupTag (dictInsert k v m) k = some v) ∧
    (lookupTag BLOCKS "heading" = some .heading ∧
     lookupTag BLOCKS "header" = some .heading ∧
     lookupTag BLOCKS "paragraph" = some .paragraph ∧
     lookupTag BLOCKS "list" = some .list ∧
     lookupTag BLOCKS "checklist" = some .checklist ∧
     lookupTag BLOCKS "thematicBreak" = some .delimiter ∧
     lookupTag BLOCKS "delimiter" = some .delimiter ∧
     lookupTag BLOCKS "code" = some .code ∧
     lookupTag BLOCKS "image" = some .image ∧
     lookupTag BLOCKS "blockquote" = some .quote ∧
     lookupTag BLOCKS "quote" = some .quote ∧
     lookupTag BLOCKS "raw" = some .raw ∧
     lookupTag BLOCKS "table" = some .table ∧
     lookupTag BLOCKS "linkTool" = some .linkTool ∧
     lookupTag BLOCKS "attaches" = some .attaches) := by
  constructor
  · intro m k v
    induction m with
    | nil => simp [dictInsert, lookupTag, List.lookup]
    | cons p rest ih =>
      obtain ⟨k', v'⟩ := p
      by_cases hk : k' = k
      · subst hk
        simp [dictInsert, lookupTag, List.lookup]
      · simp only [dictInsert, if_neg hk, lookupTag, List.lookup]
        rw [show (k == k') = false from beq_eq_false_iff_ne.mpr (fun h => hk h.symm)]
        simpa [lookupTag] using ih
  · decide

/-- Witness for C5 at the spec's concrete table text. -/
theorem claim_C5_witness :
    TableBlock.to_json
        (.mk none (some "|A|B|\n|-|-|\n|1|2|") none none false none none none none none none none none) =
      .ok [.obj [("type", .s "table"),
                 ("data", .obj [("content", .arr
                      ((((if (tableCells "|A|B|").any (fun c => c ≠ "") then [tableCells "|A|B|"] else []) ++
                         (["|-|-|", "|1|2|"].drop 1).map tableCells)).map fun r => .arr (r.map J.s))),
                    ("withHeadings", .b ((tableCells "|A|B|").any (fun c => c ≠ "")))])]] :=
  claim_C5.1 _ "|A|B|\n|-|-|\n|1|2|" "|A|B|" ["|-|-|", "|1|2|"] rfl rfl

end EditorJS
